import Mathlib

set_option maxHeartbeats 1000000
set_option maxRecDepth 100000

/-!
Verification of the umap formatter module (geospatial import/export pipeline).

The definitions below are a shallow embedding of
`umap/static/umap/js/modules/formatter.js`.  JavaScript values are modelled by
the inductive type `JsVal` (numbers as integers), feature collections by
`FeatureColl`, and the external collaborators (the WKT decoder, the per-format
converters, the CSV-to-geo converter) are passed in as explicit inputs, since
the module only consumes their outputs.  JavaScript exceptions are modelled
with `Except`, and the promise returned by `Formatter.parse` is modelled by
`ParseResult` (resolved / rejected / pending).
-/

/-- JavaScript runtime values as used by the formatter module.  Numbers are
modelled as integers; object fields keep insertion order. -/
inductive JsVal where
  | undefVal
  | null
  | bool (b : Bool)
  | num (n : Int)
  | str (s : String)
  | arr (elems : List JsVal)
  | obj (fields : List (String × JsVal))

/-- JavaScript truthiness of a value (`if (x)`). -/
def JsVal.truthy : JsVal → Bool
  | .undefVal => false
  | .null => false
  | .bool b => b
  | .num n => n != 0
  | .str s => s != ""
  | .arr _ => true
  | .obj _ => true

/-- Whether `typeof x` is `'object'` (true for null, arrays and objects). -/
def JsVal.isObjectType : JsVal → Bool
  | .null => true
  | .arr _ => true
  | .obj _ => true
  | _ => false

/-- Whether the value is `undefined`. -/
def JsVal.isUndefVal : JsVal → Bool
  | .undefVal => true
  | _ => false

/-- Strict equality with null (`x === null`). -/
def JsVal.isNull : JsVal → Bool
  | .null => true
  | _ => false

/-- JavaScript `key.startsWith('_')`: whether the first character is an
underscore. -/
def startsWithUnderscore (k : String) : Bool :=
  match k.data with
  | '_' :: _ => true
  | _ => false

/-- Property read `o[key]`: `undefined` when the key is absent. -/
def propGet (props : List (String × JsVal)) (key : String) : JsVal :=
  match props.lookup key with
  | some v => v
  | none => .undefVal

/-- Property write `o[key] = v`: overwrite in place, else append. -/
def propSet (props : List (String × JsVal)) (key : String) (v : JsVal) :
    List (String × JsVal) :=
  match props with
  | [] => [(key, v)]
  | (k, w) :: rest => if k = key then (k, v) :: rest else (k, w) :: propSet rest key v

/-- Property removal `delete o[key]`. -/
def propDelete (props : List (String × JsVal)) (key : String) : List (String × JsVal) :=
  props.filter (fun kv => kv.1 != key)

/-- A GeoJSON feature: a geometry value (possibly `JsVal.null`) and a
properties map. -/
structure Feature where
  geometry : JsVal
  properties : List (String × JsVal)

/-- A feature collection: the ordered list of features. -/
structure FeatureColl where
  features : List Feature

/-- Splitting on the separator regex `\r\n|\r|\n`, accumulator-style; returns
the list of line segments (the count is what the module uses). -/
def splitLinesData : List Char → List Char → List (List Char)
  | acc, [] => [acc.reverse]
  | acc, '\r' :: '\n' :: rest => acc.reverse :: splitLinesData [] rest
  | acc, '\r' :: rest => acc.reverse :: splitLinesData [] rest
  | acc, '\n' :: rest => acc.reverse :: splitLinesData [] rest
  | acc, c :: rest => splitLinesData (c :: acc) rest

/-- JavaScript `str.split(/\r\n|\r|\n/)`. -/
def splitLines (s : String) : List (List Char) := splitLinesData [] s.data

mutual
/-- JavaScript `String(x)` coercion. -/
def jsToString : JsVal → String
  | .undefVal => "undefined"
  | .null => "null"
  | .bool true => "true"
  | .bool false => "false"
  | .num n => toString n
  | .str s => s
  | .arr vs => jsJoinComma vs
  | .obj _ => "[object Object]"

/-- Array-to-string joining (`Array.prototype.toString`): elements joined by
commas, with `null`/`undefined` elements rendered as the empty string. -/
def jsJoinComma : List JsVal → String
  | [] => ""
  | [.undefVal] => ""
  | [.null] => ""
  | [v] => jsToString v
  | .undefVal :: v2 :: rest => "," ++ jsJoinComma (v2 :: rest)
  | .null :: v2 :: rest => "," ++ jsJoinComma (v2 :: rest)
  | v :: v2 :: rest => jsToString v ++ "," ++ jsJoinComma (v2 :: rest)
end

/-! JSON serialization (`JSON.stringify(v, null, 2)`) and parsing
(`JSON.parse`), needed because the module uses them directly (strict geometry
parse, GeoJSON import, GeoJSON export). -/
/-- Decimal digit characters. -/
def digitChar10 (n : Nat) : Char :=
  match n with
  | 0 => '0' | 1 => '1' | 2 => '2' | 3 => '3' | 4 => '4'
  | 5 => '5' | 6 => '6' | 7 => '7' | 8 => '8' | _ => '9'

/-- Lowercase hex digit characters (as emitted by JSON.stringify escapes). -/
def hexChar16 (n : Nat) : Char :=
  match n with
  | 0 => '0' | 1 => '1' | 2 => '2' | 3 => '3' | 4 => '4'
  | 5 => '5' | 6 => '6' | 7 => '7' | 8 => '8' | 9 => '9'
  | 10 => 'a' | 11 => 'b' | 12 => 'c' | 13 => 'd' | 14 => 'e' | _ => 'f'

/-- Fueled decimal rendering of a natural number (any fuel above the number
itself is enough). -/
def natToCharsFuel : Nat → Nat → List Char
  | 0, _ => []
  | fuel + 1, n =>
    if n < 10 then [digitChar10 n]
    else natToCharsFuel fuel (n / 10) ++ [digitChar10 (n % 10)]

/-- Decimal rendering of a natural number. -/
def natToChars (n : Nat) : List Char := natToCharsFuel (n + 1) n

/-- Decimal rendering of an integer. -/
def intToChars (n : Int) : List Char :=
  if n < 0 then '-' :: natToChars n.natAbs else natToChars n.toNat

/-- JSON.stringify escaping of one string character. -/
def escChar (c : Char) : List Char :=
  if c = '"' then ['\\', '"']
  else if c = '\\' then ['\\', '\\']
  else if c = '\x08' then ['\\', 'b']
  else if c = '\x09' then ['\\', 't']
  else if c = '\x0a' then ['\\', 'n']
  else if c = '\x0c' then ['\\', 'f']
  else if c = '\x0d' then ['\\', 'r']
  else if c.toNat < 32 then
    ['\\', 'u', '0', '0', hexChar16 (c.toNat / 16), hexChar16 (c.toNat % 16)]
  else [c]

/-- JSON.stringify escaping of a character sequence. -/
def escList : List Char → List Char
  | [] => []
  | c :: rest => escChar c ++ escList rest

/-- A rendered JSON string literal. -/
def renderString (s : String) : List Char :=
  '"' :: (escList s.data ++ ['"'])

mutual
/-- JSON.stringify's pre-pass on `undefined`: dropped in objects, `null` in
arrays (scalars and other positions are unchanged). -/
def stripUndefVals : JsVal → JsVal
  | .undefVal => .null
  | .arr vs => .arr (stripElems vs)
  | .obj fs => .obj (stripFields fs)
  | v => v

/-- stripUndefVals on array elements. -/
def stripElems : List JsVal → List JsVal
  | [] => []
  | v :: rest => stripUndefVals v :: stripElems rest

/-- stripUndefVals on object fields: fields holding `undefined` are dropped. -/
def stripFields : List (String × JsVal) → List (String × JsVal)
  | [] => []
  | (k, v) :: rest =>
    if v.isUndefVal then stripFields rest else (k, stripUndefVals v) :: stripFields rest
end

/-- The indentation emitted at nesting depth implied by `n` spaces. -/
def indentChars (n : Nat) : List Char := List.replicate n ' '

mutual
/-- Rendering of `JSON.stringify(v, null, 2)` at nesting depth `d`, for values
already passed through `stripUndefVals`. -/
def renderVal (d : Nat) : JsVal → List Char
  | .undefVal => "null".data
  | .null => "null".data
  | .bool true => "true".data
  | .bool false => "false".data
  | .num n => intToChars n
  | .str s => renderString s
  | .arr [] => ['[', ']']
  | .arr (v :: rest) =>
    '[' :: '\n' :: (renderElems d (v :: rest) ++ '\n' :: (indentChars (2 * d) ++ [']']))
  | .obj [] => ['{', '}']
  | .obj (f :: rest) =>
    '{' :: '\n' :: (renderFields d (f :: rest) ++ '\n' :: (indentChars (2 * d) ++ ['}']))

/-- Rendering of the items of a non-empty array, one per line. -/
def renderElems (d : Nat) : List JsVal → List Char
  | [] => []
  | [v] => indentChars (2 * (d + 1)) ++ renderVal (d + 1) v
  | v :: rest =>
    indentChars (2 * (d + 1)) ++ (renderVal (d + 1) v ++ ',' :: '\n' :: renderElems d rest)

/-- Rendering of the fields of a non-empty object, one per line. -/
def renderFields (d : Nat) : List (String × JsVal) → List Char
  | [] => []
  | [(k, v)] =>
    indentChars (2 * (d + 1)) ++ (renderString k ++ ':' :: ' ' :: renderVal (d + 1) v)
  | (k, v) :: rest =>
    indentChars (2 * (d + 1)) ++
      (renderString k ++ ':' :: ' ' :: (renderVal (d + 1) v ++ ',' :: '\n' :: renderFields d rest))
end

/-- JSON.stringify(v, null, 2), as a string. -/
def stringify2 (v : JsVal) : String := String.mk (renderVal 0 (stripUndefVals v))

/-- JSON whitespace characters. -/
def isWs (c : Char) : Bool := c = ' ' || c = '\n' || c = '\t' || c = '\r'

/-- Skipping JSON whitespace. -/
def skipWs : List Char → List Char
  | [] => []
  | c :: rest => if isWs c then skipWs rest else c :: rest

/-- Value of one hex digit. -/
def hexVal (c : Char) : Option Nat :=
  if '0' ≤ c ∧ c ≤ '9' then some (c.toNat - 48)
  else if 'a' ≤ c ∧ c ≤ 'f' then some (c.toNat - 87)
  else if 'A' ≤ c ∧ c ≤ 'F' then some (c.toNat - 55)
  else none

/-- Parse the body of a JSON string literal (the opening quote has been
consumed); returns the unescaped characters and the remaining input. -/
def parseStrBody : List Char → Option (List Char × List Char)
  | [] => none
  | c :: rest =>
    if c = '"' then some ([], rest)
    else if c = '\\' then
      match rest with
      | [] => none
      | e :: rest2 =>
        if e = '"' then (parseStrBody rest2).map (fun p => ('"' :: p.1, p.2))
        else if e = '\\' then (parseStrBody rest2).map (fun p => ('\\' :: p.1, p.2))
        else if e = '/' then (parseStrBody rest2).map (fun p => ('/' :: p.1, p.2))
        else if e = 'b' then (parseStrBody rest2).map (fun p => ('\x08' :: p.1, p.2))
        else if e = 't' then (parseStrBody rest2).map (fun p => ('\x09' :: p.1, p.2))
        else if e = 'n' then (parseStrBody rest2).map (fun p => ('\x0a' :: p.1, p.2))
        else if e = 'f' then (parseStrBody rest2).map (fun p => ('\x0c' :: p.1, p.2))
        else if e = 'r' then (parseStrBody rest2).map (fun p => ('\x0d' :: p.1, p.2))
        else if e = 'u' then
          match rest2 with
          | h1 :: h2 :: h3 :: h4 :: rest3 =>
            match hexVal h1, hexVal h2, hexVal h3, hexVal h4 with
            | some a, some b, some k, some m =>
              (parseStrBody rest3).map
                (fun p => (Char.ofNat (((a * 16 + b) * 16 + k) * 16 + m) :: p.1, p.2))
            | _, _, _, _ => none
          | _ => none
        else none
    else (parseStrBody rest).map (fun p => (c :: p.1, p.2))

/-- Numeric value of one decimal digit character. -/
def digitVal (c : Char) : Nat := c.toNat - 48

/-- Digit run at the head of the input. -/
def parseDigits : List Char → List Char × List Char
  | [] => ([], [])
  | c :: rest =>
    if c.isDigit then
      let p := parseDigits rest
      (c :: p.1, p.2)
    else ([], c :: rest)

/-- Decimal value of a digit run. -/
def digitsToNat (ds : List Char) : Nat := ds.foldl (fun acc c => acc * 10 + digitVal c) 0

mutual
/-- Fueled JSON value parser (JSON.parse); numbers restricted to integers. -/
def parseVal : Nat → List Char → Option (JsVal × List Char)
  | 0, _ => none
  | fuel + 1, input =>
    match skipWs input with
    | [] => none
    | c :: rest =>
      if c = 'n' then
        match rest with
        | 'u' :: 'l' :: 'l' :: r => some (.null, r)
        | _ => none
      else if c = 't' then
        match rest with
        | 'r' :: 'u' :: 'e' :: r => some (.bool true, r)
        | _ => none
      else if c = 'f' then
        match rest with
        | 'a' :: 'l' :: 's' :: 'e' :: r => some (.bool false, r)
        | _ => none
      else if c = '"' then
        (parseStrBody rest).map (fun p => (.str (String.mk p.1), p.2))
      else if c = '[' then
        match skipWs rest with
        | [] => none
        | c2 :: r =>
          if c2 = ']' then some (.arr [], r)
          else (parseElems fuel rest).map (fun p => (.arr p.1, p.2))
      else if c = '{' then
        match skipWs rest with
        | [] => none
        | c2 :: r =>
          if c2 = '}' then some (.obj [], r)
          else (parseFieldList fuel rest).map (fun p => (.obj p.1, p.2))
      else if c = '-' then
        match parseDigits rest with
        | ([], _) => none
        | (ds, r) => some (.num (-(digitsToNat ds : Int)), r)
      else if c.isDigit then
        match parseDigits (c :: rest) with
        | (ds, r) => some (.num (digitsToNat ds : Int), r)
      else none

/-- Fueled parser for the items of a non-empty array (after `[`). -/
def parseElems : Nat → List Char → Option (List JsVal × List Char)
  | 0, _ => none
  | fuel + 1, input =>
    match parseVal fuel input with
    | none => none
    | some (v, r1) =>
      match skipWs r1 with
      | [] => none
      | c :: r2 =>
        if c = ',' then (parseElems fuel r2).map (fun p => (v :: p.1, p.2))
        else if c = ']' then some ([v], r2)
        else none

/-- Fueled parser for the fields of a non-empty object (after `{`). -/
def parseFieldList : Nat → List Char → Option (List (String × JsVal) × List Char)
  | 0, _ => none
  | fuel + 1, input =>
    match skipWs input with
    | [] => none
    | c :: rest =>
      if c = '"' then
        match parseStrBody rest with
        | none => none
        | some (kcs, r1) =>
          match skipWs r1 with
          | [] => none
          | c2 :: r2 =>
            if c2 = ':' then
              match parseVal fuel r2 with
              | none => none
              | some (v, r3) =>
                match skipWs r3 with
                | [] => none
                | c3 :: r4 =>
                  if c3 = ',' then
                    (parseFieldList fuel r4).map
                      (fun p => ((String.mk kcs, v) :: p.1, p.2))
                  else if c3 = '}' then some ([(String.mk kcs, v)], r4)
                  else none
            else none
      else none
end

/-- JSON.parse on a string: parse one value and require only trailing
whitespace after it. -/
def parseJson (s : String) : Option JsVal :=
  match parseVal (s.data.length + 1) s.data with
  | some (v, rest) => if skipWs rest = [] then some v else none
  | none => none

/-! The formatter module proper. -/
/-- Exception-explicit strict structured parse (`JSON.parse(geom)` inside
parseTextGeom): the argument is coerced to a string, and a parse failure is a
thrown exception. -/
def jsonParseE (geom : JsVal) : Except Unit JsVal :=
  match parseJson (jsToString geom) with
  | some v => .ok v
  | none => .error ()

/-- parseTextGeom with exceptions explicit: try the strict structured parse;
on a throw, try the lenient WKT decoder `wkt` (an external collaborator which
may itself throw); on a throw there, return null.  Every path returns. -/
def parseTextGeomE (wkt : JsVal → Except Unit JsVal) (geom : JsVal) : Except Unit JsVal :=
  match jsonParseE geom with
  | .ok v => .ok v
  | .error _ =>
    match wkt geom with
    | .ok v => .ok v
    | .error _ => .ok .null

/-- parseTextGeom as the value it always produces. -/
def parseTextGeom (wkt : JsVal → Except Unit JsVal) (geom : JsVal) : JsVal :=
  match parseJson (jsToString geom) with
  | some v => v
  | none =>
    match wkt geom with
    | .ok v => v
    | .error _ => .null

/-- The fixed ordered candidate list of geometry-bearing column names. -/
def geomFields : List String := ["geom", "geometry", "wkt", "geojson"]

/-- The error value the CSV converter hands to its callback: either a single
structured error (`err.type === 'Error'`) or a non-empty array of row errors. -/
inductive CsvErr where
  | fatal (message : String)
  | rows (first : String) (rest : List String)
  deriving DecidableEq

/-- The fatal no-geo-column message raised by Formatter.fromCSV. -/
def noGeoMessage : String :=
  "No geo column found: must be either `lat(itude)` and `lon(gitude)` or `geom(etry)`."

/-- The templated row-error-batch message
`'{count} errors during import: {message}'`. -/
def rowsMessage (count : Nat) (message : String) : String :=
  s!"{count} errors during import: {message}"

/-- One step of the geometry-column fallback, applied to one feature:
`feature.geometry = await parseTextGeom(feature.properties[field])` followed by
`delete feature.properties[field]`. -/
def applyGeomField (wkt : JsVal → Except Unit JsVal) (field : String) (f : Feature) :
    Feature :=
  { geometry := parseTextGeom wkt (propGet f.properties field),
    properties := propDelete f.properties field }

/-- The candidate-column search on the first feature: the first name of
`geomFields` whose value is truthy (`if (first.properties[field])`). -/
def findGeomField (f : Feature) : Option String :=
  geomFields.find? (fun field => (propGet f.properties field).truthy)

/-- The geometry-fallback phase of Formatter.fromCSV's converter callback:
runs only when the first feature's geometry is null, and applies the matched
column (if any) uniformly to every feature. -/
def csvFixGeometries (wkt : JsVal → Except Unit JsVal) (r : FeatureColl) : FeatureColl :=
  match r.features with
  | [] => r
  | first :: _ =>
    if first.geometry.isNull then
      match findGeomField first with
      | some field => ⟨r.features.map (applyGeomField wkt field)⟩
      | none => r
    else r

/-- The error override after the fallback phase: when the first feature's
geometry was null and is still null after the fallback, the error becomes the
fatal no-geo-column error (superseding whatever the converter supplied). -/
def csvErrAfter (wkt : JsVal → Except Unit JsVal) (err : Option CsvErr)
    (r : FeatureColl) : Option CsvErr :=
  match r.features with
  | [] => err
  | first :: _ =>
    if first.geometry.isNull then
      match (csvFixGeometries wkt r).features with
      | [] => err
      | first2 :: _ => if first2.geometry.isNull then some (.fatal noGeoMessage) else err
    else err

/-- The reporting block `if (err) ...` of Formatter.fromCSV: builds the message
(single structured error vs row batch), then either logs at debug level (raw
input of at most two lines) or alerts with the extended 10000 duration.
Returns (alert, debug log). -/
def csvReport (str : String) (err : Option CsvErr) :
    Option (String × Nat) × Option CsvErr :=
  match err with
  | none => (none, none)
  | some e =>
    let message :=
      match e with
      | .fatal m => m
      | .rows firstMsg restMsgs => rowsMessage (restMsgs.length + 1) firstMsg
    if (splitLines str).length ≤ 2 then (none, some e)
    else (some (message, 10000), none)

/-- Everything observable about one run of Formatter.fromCSV's converter
callback. -/
structure CsvOutcome where
  alert : Option (String × Nat)
  debugged : Option CsvErr
  delivered : Option FeatureColl
  errFinal : Option CsvErr

namespace Formatter

/-- Formatter.fromCSV's converter callback, as a function of the raw input
text and of the error and result supplied by the external CSV-to-geo
converter.  The callback invocation (`callback(result)`) is the `delivered`
component; it happens exactly when the result has at least one feature. -/
def fromCSVHandler (wkt : JsVal → Except Unit JsVal) (str : String)
    (err0 : Option CsvErr) (result0 : Option FeatureColl) : CsvOutcome :=
  match result0 with
  | none =>
    let rep := csvReport str err0
    ⟨rep.1, rep.2, none, err0⟩
  | some r =>
    if r.features.isEmpty then
      let rep := csvReport str err0
      ⟨rep.1, rep.2, none, err0⟩
    else
      let r2 := csvFixGeometries wkt r
      let err2 := csvErrAfter wkt err0 r
      let rep := csvReport str err2
      ⟨rep.1, rep.2, some r2, err2⟩

/-- Formatter.fromGPX's per-feature post-processing: copy `desc` into
`description`, then delete every property whose key starts with `_` or whose
value is object-typed. -/
def gpxCleanFeature (f : Feature) : Feature :=
  let props := propSet f.properties "description" (propGet f.properties "desc")
  ⟨f.geometry,
    props.filter (fun kv => !(startsWithUnderscore kv.1 || kv.2.isObjectType))⟩

/-- Formatter.fromGPX, as a function of the XML-to-GeoJSON converter's
output. -/
def fromGPX (converted : FeatureColl) : FeatureColl :=
  ⟨converted.features.map gpxCleanFeature⟩

/-- Formatter.fromKML, as a function of the XML-to-GeoJSON converter's output:
the converted collection is returned without any post-processing. -/
def fromKML (converted : FeatureColl) : FeatureColl := converted

/-- Formatter.fromGeoJSON: a direct JSON.parse of the text (a parse failure is
a thrown exception, modelled as `none`). -/
def fromGeoJSON (str : String) : Option JsVal := parseJson str

end Formatter

/-- The GeoJSON form of a feature, as produced by `feature.toGeoJSON()`. -/
def featureToJson (f : Feature) : JsVal :=
  .obj [("type", .str "Feature"), ("geometry", f.geometry),
        ("properties", .obj f.properties)]

/-- The GeoJSON form of a feature collection, as produced by
`umap.toGeoJSON()`. -/
def fcToJson (fc : FeatureColl) : JsVal :=
  .obj [("type", .str "FeatureCollection"),
        ("features", .arr (fc.features.map featureToJson))]

/-- EXPORT_FORMATS.geojson.formatter:
`JSON.stringify(umap.toGeoJSON(), null, 2)`. -/
def exportGeojson (fc : FeatureColl) : String := stringify2 (fcToJson fc)

/-- Reading a feature back out of its GeoJSON form. -/
def jsonToFeature : JsVal → Option Feature
  | .obj fs =>
    match fs.lookup "geometry", fs.lookup "properties" with
    | some g, some (.obj props) => some ⟨g, props⟩
    | _, _ => none
  | _ => none

/-- Reading a feature collection back out of its GeoJSON form. -/
def jsonToFc : JsVal → Option FeatureColl
  | .obj fs =>
    match fs.lookup "features" with
    | some (.arr items) => (items.mapM jsonToFeature).map FeatureColl.mk
    | _ => none
  | _ => none

/-- The outcome of the promise returned by Formatter.parse: resolved with a
value or with undefined, rejected, or never settled. -/
inductive ParseResult where
  | resolved (v : Option JsVal)
  | rejected
  | pending

/-- The outputs of the external collaborators consumed by Formatter.parse:
the lenient WKT decoder, the per-format converter outputs, and the error and
result the CSV-to-geo converter hands to its callback. -/
structure Collaborators where
  wkt : JsVal → Except Unit JsVal
  gpxOut : FeatureColl
  kmlOut : FeatureColl
  osmOut : FeatureColl
  georssOut : FeatureColl
  csvErr : Option CsvErr
  csvResult : Option FeatureColl

namespace Formatter

/-- Formatter.fromOSM, as a function of the osmtogeojson converter output. -/
def fromOSM (c : Collaborators) : FeatureColl := c.osmOut

/-- Formatter.fromGeoRSS, as a function of its converter output. -/
def fromGeoRSS (c : Collaborators) : FeatureColl := c.georssOut

/-- Formatter.parse: the format dispatcher.  For `csv` the returned promise
resolves only when the CSV callback delivers a collection, and is otherwise
left pending; a `geojson` parse failure rejects; an unknown format falls out
of the switch and resolves with undefined. -/
def parse (c : Collaborators) (str : String) (format : String) : ParseResult :=
  if format = "csv" then
    match (fromCSVHandler c.wkt str c.csvErr c.csvResult).delivered with
    | some fc => .resolved (some (fcToJson fc))
    | none => .pending
  else if format = "gpx" then .resolved (some (fcToJson (fromGPX c.gpxOut)))
  else if format = "kml" then .resolved (some (fcToJson (fromKML c.kmlOut)))
  else if format = "osm" then .resolved (some (fcToJson (fromOSM c)))
  else if format = "georss" then .resolved (some (fcToJson (fromGeoRSS c)))
  else if format = "geojson" then
    match parseJson str with
    | some v => .resolved (some v)
    | none => .rejected
  else .resolved none

end Formatter

/-! Helper facts about the CSV handler. -/
/-- A lenient WKT decoder that always throws; used for concrete runs. -/
def wktNone : JsVal → Except Unit JsVal := fun _ => .error ()

/-- A stub set of collaborator outputs, for concrete runs. -/
def collabStub : Collaborators :=
  ⟨wktNone, ⟨[]⟩, ⟨[]⟩, ⟨[]⟩, ⟨[]⟩, none, none⟩

/-- A one-feature converter result with null geometry and no candidate
geometry column. -/
def csvNoGeoSample : FeatureColl := ⟨[⟨.null, [("name", .str "A")]⟩]⟩

/-- A concrete converter result whose first feature carries a wkt column. -/
def csvWktSample : FeatureColl :=
  ⟨[⟨.null, [("name", .str "A"), ("wkt", .str "POINT (1 2)")]⟩,
    ⟨.null, [("name", .str "B")]⟩]⟩

/-- A KML converter output carrying an internal-bookkeeping property and a
desc property. -/
def kmlSample : FeatureColl :=
  ⟨[⟨.null, [("_private", .str "x"), ("desc", .str "hello")]⟩]⟩

/-! Structural induction over JsVal and the measures used to drive the fueled
parser. -/
section JsValInd

variable {P : JsVal → Prop} {Q : List JsVal → Prop} {R : List (String × JsVal) → Prop}
variable (hundef : P .undefVal) (hnull : P .null) (hbool : ∀ b, P (.bool b))
  (hnum : ∀ n, P (.num n)) (hstr : ∀ s, P (.str s))
  (harr : ∀ vs, Q vs → P (.arr vs)) (hobj : ∀ fs, R fs → P (.obj fs))
  (qnil : Q []) (qcons : ∀ v vs, P v → Q vs → Q (v :: vs))
  (rnil : R []) (rcons : ∀ k v fs, P v → R fs → R ((k, v) :: fs))

mutual
/-- Mutual induction for JsVal. -/
def jsValIndP : ∀ v : JsVal, P v
  | .undefVal => hundef
  | .null => hnull
  | .bool b => hbool b
  | .num n => hnum n
  | .str s => hstr s
  | .arr vs => harr vs (jsValIndQ vs)
  | .obj fs => hobj fs (jsValIndR fs)

/-- Mutual induction for lists of JsVal. -/
def jsValIndQ : ∀ vs : List JsVal, Q vs
  | [] => qnil
  | v :: vs => qcons v vs (jsValIndP v) (jsValIndQ vs)

/-- Mutual induction for field lists. -/
def jsValIndR : ∀ fs : List (String × JsVal), R fs
  | [] => rnil
  | (k, v) :: fs => rcons k v fs (jsValIndP v) (jsValIndR fs)
end

end JsValInd

mutual
/-- Whether a value contains no `undefined` anywhere (so it is exactly
representable in JSON). -/
def JsVal.jsonOnly : JsVal → Bool
  | .undefVal => false
  | .arr vs => jsonOnlyList vs
  | .obj fs => jsonOnlyFields fs
  | _ => true

/-- jsonOnly on array elements. -/
def jsonOnlyList : List JsVal → Bool
  | [] => true
  | v :: vs => v.jsonOnly && jsonOnlyList vs

/-- jsonOnly on object fields. -/
def jsonOnlyFields : List (String × JsVal) → Bool
  | [] => true
  | (_, v) :: fs => v.jsonOnly && jsonOnlyFields fs
end

mutual
/-- A size measure for JsVal driving the parser fuel. -/
def jsize : JsVal → Nat
  | .arr vs => jsizeList vs + 1
  | .obj fs => jsizeFields fs + 1
  | _ => 1

/-- Size of array elements. -/
def jsizeList : List JsVal → Nat
  | [] => 1
  | v :: vs => jsize v + jsizeList vs + 1

/-- Size of object fields. -/
def jsizeFields : List (String × JsVal) → Nat
  | [] => 1
  | (_, v) :: fs => jsize v + jsizeFields fs + 1
end

/-- Input that a number parse must not run into. -/
def numOk : List Char → Prop
  | [] => True
  | c :: _ => c.isDigit = false

/-- Whether a feature collection carries only JSON-representable values (no
undefined in geometries or property values). -/
def fcJsonOnly (fc : FeatureColl) : Bool :=
  fc.features.all (fun f => f.geometry.jsonOnly && jsonOnlyFields f.properties)

/-- A feature collection holding a property with an undefined value, as the
GPX import path itself produces. -/
def fcUndefSample : FeatureColl := ⟨[⟨.null, [("description", .undefVal)]⟩]⟩

/-- One unfolding step of the fueled renderer. -/
theorem natToCharsFuel_succ (fuel n : Nat) :
    natToCharsFuel (fuel + 1) n =
      if n < 10 then [digitChar10 n]
      else natToCharsFuel fuel (n / 10) ++ [digitChar10 (n % 10)] := rfl

/-- The fuel does not matter once it exceeds the number. -/
theorem natToCharsFuel_congr : ∀ f1 f2 n : Nat, n < f1 → n < f2 →
    natToCharsFuel f1 n = natToCharsFuel f2 n := by
  intro f1
  induction f1 with
  | zero => intro f2 n h1 h2; omega
  | succ f1 ih =>
    intro f2 n h1 h2
    cases f2 with
    | zero => omega
    | succ f2 =>
      rw [natToCharsFuel_succ, natToCharsFuel_succ]
      by_cases h : n < 10
      · simp [h]
      · simp only [h, if_false]
        have hdiv : n / 10 < n := Nat.div_lt_self (by omega) (by omega)
        rw [ih f2 (n / 10) (by omega) (by omega)]

/-- The defining recurrence of the decimal renderer. -/
theorem natToChars_eq (n : Nat) :
    natToChars n = if n < 10 then [digitChar10 n]
      else natToChars (n / 10) ++ [digitChar10 (n % 10)] := by
  show natToCharsFuel (n + 1) n = _
  rw [natToCharsFuel_succ]
  by_cases h : n < 10
  · simp [h]
  · simp only [h, if_false]
    have hdiv : n / 10 < n := Nat.div_lt_self (by omega) (by omega)
    rw [natToCharsFuel_congr n (n / 10 + 1) (n / 10) (by omega) (by omega)]
    rfl

/-- The alert and debug-log outputs of the CSV callback are exactly the
report of its final error classification. -/
theorem fromCSVHandler_report (w : JsVal → Except Unit JsVal) (str : String)
    (err0 : Option CsvErr) (result0 : Option FeatureColl) :
    (Formatter.fromCSVHandler w str err0 result0).alert =
      (csvReport str (Formatter.fromCSVHandler w str err0 result0).errFinal).1 ∧
    (Formatter.fromCSVHandler w str err0 result0).debugged =
      (csvReport str (Formatter.fromCSVHandler w str err0 result0).errFinal).2 := by
  cases result0 with
  | none => exact ⟨rfl, rfl⟩
  | some r =>
    by_cases h : r.features.isEmpty <;>
      simp [Formatter.fromCSVHandler, h]

/-- Report of a single structured (fatal) error. -/
theorem csvReport_fatal (str : String) (m : String) :
    csvReport str (some (.fatal m)) =
      if (splitLines str).length ≤ 2 then (none, some (.fatal m))
      else (some (m, 10000), none) := rfl

/-- Report of a row-error batch. -/
theorem csvReport_rows (str : String) (firstMsg : String) (restMsgs : List String) :
    csvReport str (some (.rows firstMsg restMsgs)) =
      if (splitLines str).length ≤ 2 then (none, some (.rows firstMsg restMsgs))
      else (some (rowsMessage (restMsgs.length + 1) firstMsg, 10000), none) := rfl

/-- C1 counterexample: a two-line CSV with no geo column is classified as the
fatal no-geo-column error, yet no user-facing alert is raised (the error is
only debug-logged), contrary to the claim that a fatal error's message is
surfaced for every raw input text including inputs of two or fewer lines. -/
theorem c1_counterexample :
    (Formatter.fromCSVHandler wktNone "name\nfoo" none
        (some ⟨[⟨.null, [("name", .str "foo")]⟩]⟩)).errFinal
        = some (.fatal noGeoMessage) ∧
    (Formatter.fromCSVHandler wktNone "name\nfoo" none
        (some ⟨[⟨.null, [("name", .str "foo")]⟩]⟩)).alert = none ∧
    (Formatter.fromCSVHandler wktNone "name\nfoo" none
        (some ⟨[⟨.null, [("name", .str "foo")]⟩]⟩)).debugged
        = some (.fatal noGeoMessage) :=
  ⟨rfl, rfl, rfl⟩

/-- C1 (amended): for every CSV import whose final error classification is a
single fatal error, the error message is surfaced to the user-facing alert
channel with the extended 10000 display duration exactly when the raw input
text splits into more than two lines; when it splits into two or fewer lines
the error is only logged at debug level and no alert is raised. -/
theorem c1_fatal_error_alert (w : JsVal → Except Unit JsVal) (str : String)
    (err0 : Option CsvErr) (result0 : Option FeatureColl) (m : String)
    (h : (Formatter.fromCSVHandler w str err0 result0).errFinal = some (.fatal m)) :
    (2 < (splitLines str).length →
      (Formatter.fromCSVHandler w str err0 result0).alert = some (m, 10000) ∧
      (Formatter.fromCSVHandler w str err0 result0).debugged = none) ∧
    ((splitLines str).length ≤ 2 →
      (Formatter.fromCSVHandler w str err0 result0).alert = none ∧
      (Formatter.fromCSVHandler w str err0 result0).debugged = some (.fatal m)) := by
  obtain ⟨ha, hd⟩ := fromCSVHandler_report w str err0 result0
  rw [h] at ha hd
  rw [csvReport_fatal] at ha hd
  constructor
  · intro hlt
    rw [ha, hd, if_neg (by omega)]
    exact ⟨rfl, rfl⟩
  · intro hle
    rw [ha, hd, if_pos hle]
    exact ⟨rfl, rfl⟩

/-- Witness for c1_fatal_error_alert: a fatal error on a three-line input is
alerted with the 10000 duration. -/
theorem c1_fatal_error_alert_witness :
    (Formatter.fromCSVHandler wktNone "a\nb\nc" (some (.fatal "boom")) none).errFinal
        = some (.fatal "boom") ∧
    (Formatter.fromCSVHandler wktNone "a\nb\nc" (some (.fatal "boom")) none).alert
        = some ("boom", 10000) :=
  ⟨rfl,
    ((c1_fatal_error_alert wktNone "a\nb\nc" (some (.fatal "boom")) none "boom" rfl).1
      (by decide)).1⟩

/-- C4: for every CSV import whose final error classification is a row-level
error batch, an input of at most two raw lines gets a debug log only and no
alert, while an input of more than two raw lines gets a user-facing alert
whose message embeds the error count and the first underlying message. -/
theorem c4_row_error_batch (w : JsVal → Except Unit JsVal) (str : String)
    (err0 : Option CsvErr) (result0 : Option FeatureColl)
    (firstMsg : String) (restMsgs : List String)
    (h : (Formatter.fromCSVHandler w str err0 result0).errFinal =
      some (.rows firstMsg restMsgs)) :
    ((splitLines str).length ≤ 2 →
      (Formatter.fromCSVHandler w str err0 result0).alert = none ∧
      (Formatter.fromCSVHandler w str err0 result0).debugged
        = some (.rows firstMsg restMsgs)) ∧
    (2 < (splitLines str).length →
      (Formatter.fromCSVHandler w str err0 result0).alert
        = some (rowsMessage (restMsgs.length + 1) firstMsg, 10000) ∧
      (Formatter.fromCSVHandler w str err0 result0).debugged = none) := by
  obtain ⟨ha, hd⟩ := fromCSVHandler_report w str err0 result0
  rw [h] at ha hd
  rw [csvReport_rows] at ha hd
  constructor
  · intro hle
    rw [ha, hd, if_pos hle]
    exact ⟨rfl, rfl⟩
  · intro hlt
    rw [ha, hd, if_neg (by omega)]
    exact ⟨rfl, rfl⟩

/-- Witness for c4_row_error_batch: the same one-row error batch is only
debug-logged on a two-line input but alerted on a three-line input. -/
theorem c4_row_error_batch_witness :
    ((Formatter.fromCSVHandler wktNone "a,b" (some (.rows "bad" [])) none).alert = none ∧
      (Formatter.fromCSVHandler wktNone "a,b" (some (.rows "bad" [])) none).debugged
        = some (.rows "bad" [])) ∧
    (Formatter.fromCSVHandler wktNone "a\nb\nc" (some (.rows "bad" [])) none).alert
      = some ("1 errors during import: bad", 10000) :=
  ⟨(c4_row_error_batch wktNone "a,b" (some (.rows "bad" [])) none "bad" [] rfl).1 (by decide),
    ((c4_row_error_batch wktNone "a\nb\nc" (some (.rows "bad" [])) none "bad" []
      rfl).2 (by decide)).1⟩

/-- C2 counterexample: on a CSV whose converter result has a first feature
with null geometry and no candidate geometry column, the fatal no-geo-column
error is raised (superseding the converter's row errors), but the callback is
still invoked with the one null-geometry feature: one feature, not zero, is
delivered to the caller. -/
theorem c2_counterexample :
    (Formatter.fromCSVHandler wktNone "name\nA\nB" (some (.rows "bad row" []))
        (some csvNoGeoSample)).errFinal = some (.fatal noGeoMessage) ∧
    (Formatter.fromCSVHandler wktNone "name\nA\nB" (some (.rows "bad row" []))
        (some csvNoGeoSample)).delivered = some csvNoGeoSample ∧
    csvNoGeoSample.features.length = 1 :=
  ⟨rfl, rfl, rfl⟩

/-- C2 (amended): for every CSV import in which the first feature's geometry
is null and no candidate geometry column yields a non-null geometry for the
first feature, the import classifies the outcome as the fatal no-geo-column
error, superseding any converter-supplied (row-level) errors; but all the
features are still delivered to the caller (the same number as the converter
produced), not zero. -/
theorem c2_no_geo_column (w : JsVal → Except Unit JsVal) (str : String)
    (err0 : Option CsvErr) (r : FeatureColl) (first : Feature) (rest : List Feature)
    (hf : r.features = first :: rest) (hnull : first.geometry = .null)
    (hstill : ∀ field, findGeomField first = some field →
      parseTextGeom w (propGet first.properties field) = .null) :
    (Formatter.fromCSVHandler w str err0 (some r)).errFinal
        = some (.fatal noGeoMessage) ∧
    ∃ r2, (Formatter.fromCSVHandler w str err0 (some r)).delivered = some r2 ∧
      r2.features.length = r.features.length := by
  have hne : r.features.isEmpty = false := by rw [hf]; rfl
  have hnull' : first.geometry.isNull = true := by rw [hnull]; rfl
  have hfix : (csvFixGeometries w r).features.length = r.features.length ∧
      ∃ f2 t2, (csvFixGeometries w r).features = f2 :: t2 ∧ f2.geometry.isNull = true := by
    rw [csvFixGeometries, hf]
    simp only [hnull', if_true]
    cases hfind : findGeomField first with
    | none => exact ⟨by rw [hf], first, rest, by rw [hf], hnull'⟩
    | some field =>
      refine ⟨by simp [hf], applyGeomField w field first,
        rest.map (applyGeomField w field), rfl, ?_⟩
      show (parseTextGeom w (propGet first.properties field)).isNull = true
      rw [hstill field hfind]
      rfl
  have herr : csvErrAfter w err0 r = some (.fatal noGeoMessage) := by
    obtain ⟨-, f2, t2, hfe, hf2⟩ := hfix
    rw [csvErrAfter, hf]
    simp only [hnull', if_true]
    rw [show (csvFixGeometries w r).features
        = (csvFixGeometries w ⟨first :: rest⟩).features from by rw [← hf], ← hf, hfe]
    simp [hf2]
  have hfinal : (Formatter.fromCSVHandler w str err0 (some r)).errFinal
      = csvErrAfter w err0 r := by
    simp [Formatter.fromCSVHandler, hne]
  have hdeliv : (Formatter.fromCSVHandler w str err0 (some r)).delivered
      = some (csvFixGeometries w r) := by
    simp [Formatter.fromCSVHandler, hne]
  exact ⟨by rw [hfinal, herr], csvFixGeometries w r, hdeliv, hfix.1⟩

/-- Witness for c2_no_geo_column at a concrete converter output. -/
theorem c2_no_geo_column_witness :
    (Formatter.fromCSVHandler wktNone "x\ny\nz" none (some csvNoGeoSample)).errFinal
        = some (.fatal noGeoMessage) ∧
    ∃ r2, (Formatter.fromCSVHandler wktNone "x\ny\nz" none
        (some csvNoGeoSample)).delivered = some r2 ∧
      r2.features.length = csvNoGeoSample.features.length :=
  c2_no_geo_column wktNone "x\ny\nz" none csvNoGeoSample ⟨.null, [("name", .str "A")]⟩ []
    rfl rfl (fun field hfield => by
      rw [show findGeomField ⟨.null, [("name", .str "A")]⟩ = none from rfl] at hfield
      cases hfield)

/-- C5: for every CSV import whose first feature has null geometry and whose
candidate search matched a column, the matched column is the first name in the
fixed order geom, geometry, wkt, geojson whose value on the first feature is
truthy; every feature of the collection then gets its geometry from the
geometry text resolver applied to that column's value and has the column
deleted from its properties, regardless of resolution success; and a feature
lacking the column resolves to null geometry (given a lenient decoder that
throws on undefined input), without aborting the batch. -/
theorem c5_geom_column_fallback (w : JsVal → Except Unit JsVal)
    (r : FeatureColl) (first : Feature) (rest : List Feature) (field : String)
    (hf : r.features = first :: rest) (hnull : first.geometry = .null)
    (hfind : findGeomField first = some field)
    (hw : w .undefVal = .error ()) :
    (field ∈ geomFields ∧ (propGet first.properties field).truthy = true ∧
      ∀ g ∈ geomFields, geomFields.indexOf g < geomFields.indexOf field →
        (propGet first.properties g).truthy = false) ∧
    (csvFixGeometries w r).features =
      r.features.map (fun f =>
        ⟨parseTextGeom w (propGet f.properties field), propDelete f.properties field⟩) ∧
    (∀ f : Feature, f.properties.lookup field = none →
      parseTextGeom w (propGet f.properties field) = .null) := by
  have hnull' : first.geometry.isNull = true := by rw [hnull]; rfl
  refine ⟨?_, ?_, ?_⟩
  · have hfind' := hfind
    simp only [findGeomField, geomFields, List.find?] at hfind'
    cases h1 : (propGet first.properties "geom").truthy <;> rw [h1] at hfind'
    case true =>
      simp only [Option.some.injEq] at hfind'
      subst hfind'
      refine ⟨by decide, h1, ?_⟩
      intro g hg hlt
      fin_cases hg <;> exact absurd hlt (by decide)
    case false =>
    cases h2 : (propGet first.properties "geometry").truthy <;> rw [h2] at hfind'
    case true =>
      simp only [Option.some.injEq] at hfind'
      subst hfind'
      refine ⟨by decide, h2, ?_⟩
      intro g hg hlt
      fin_cases hg <;> first
        | exact h1
        | exact absurd hlt (by decide)
    case false =>
    cases h3 : (propGet first.properties "wkt").truthy <;> rw [h3] at hfind'
    case true =>
      simp only [Option.some.injEq] at hfind'
      subst hfind'
      refine ⟨by decide, h3, ?_⟩
      intro g hg hlt
      fin_cases hg <;> first
        | exact h1
        | exact h2
        | exact absurd hlt (by decide)
    case false =>
    cases h4 : (propGet first.properties "geojson").truthy <;> rw [h4] at hfind'
    case true =>
      simp only [Option.some.injEq] at hfind'
      subst hfind'
      refine ⟨by decide, h4, ?_⟩
      intro g hg hlt
      fin_cases hg <;> first
        | exact h1
        | exact h2
        | exact h3
        | exact absurd hlt (by decide)
    case false => cases hfind'
  · rw [csvFixGeometries, hf]
    simp only [hnull', if_true, hfind]
    rfl
  · intro f hlook
    have hget : propGet f.properties field = .undefVal := by rw [propGet, hlook]
    have hpj : parseJson (jsToString JsVal.undefVal) = none := rfl
    simp only [parseTextGeom, hget, hpj, hw]

/-- Witness for c5_geom_column_fallback at a concrete converter output. -/
theorem c5_geom_column_fallback_witness :
    findGeomField ⟨.null, [("name", .str "A"), ("wkt", .str "POINT (1 2)")]⟩
        = some "wkt" ∧
    (csvFixGeometries wktNone csvWktSample).features =
      csvWktSample.features.map (fun f =>
        ⟨parseTextGeom wktNone (propGet f.properties "wkt"),
          propDelete f.properties "wkt"⟩) :=
  ⟨rfl,
    (c5_geom_column_fallback wktNone csvWktSample
      ⟨.null, [("name", .str "A"), ("wkt", .str "POINT (1 2)")]⟩
      [⟨.null, [("name", .str "B")]⟩] "wkt" rfl rfl rfl rfl).2.1⟩

/-- C6: the geometry text resolver is total (it never throws): when the strict
structured parse succeeds it returns the parsed value unconditionally; when
the strict parse throws and the lenient WKT decoder throws, it returns null
rather than propagating an error; and its exception-explicit form always
returns the value computed by its pure form. -/
theorem c6_resolver_total (wkt : JsVal → Except Unit JsVal) (geom : JsVal) :
    (∃ v, parseTextGeomE wkt geom = .ok v) ∧
    (∀ v, jsonParseE geom = .ok v → parseTextGeomE wkt geom = .ok v) ∧
    (jsonParseE geom = .error () → wkt geom = .error () →
      parseTextGeomE wkt geom = .ok .null) ∧
    parseTextGeomE wkt geom = .ok (parseTextGeom wkt geom) := by
  cases hj : parseJson (jsToString geom) with
  | some v =>
    refine ⟨⟨v, ?_⟩, ?_, ?_, ?_⟩ <;>
      simp [parseTextGeomE, parseTextGeom, jsonParseE, hj]
  | none =>
    cases hw : wkt geom with
    | ok v2 =>
      refine ⟨⟨v2, ?_⟩, ?_, ?_, ?_⟩ <;>
        simp [parseTextGeomE, parseTextGeom, jsonParseE, hj, hw]
    | error e =>
      refine ⟨⟨.null, ?_⟩, ?_, ?_, ?_⟩ <;>
        simp [parseTextGeomE, parseTextGeom, jsonParseE, hj, hw]

/-- Witness for c6_resolver_total: on garbage text with a throwing lenient
decoder, the resolver returns ok null. -/
theorem c6_resolver_total_witness :
    jsonParseE (.str "not wkt not json") = .error () ∧
    wktNone (.str "not wkt not json") = .error () ∧
    parseTextGeomE wktNone (.str "not wkt not json") = .ok .null :=
  ⟨rfl, rfl,
    (c6_resolver_total wktNone (.str "not wkt not json")).2.2.1 rfl rfl⟩

/-- Looking up a key in a filtered property list after writing it: if the
written pair survives the filter, the lookup finds exactly the written
value. -/
theorem lookup_filter_propSet (props : List (String × JsVal)) (k : String) (v : JsVal)
    (pred : String × JsVal → Bool) (hv : pred (k, v) = true) :
    ((propSet props k v).filter pred).lookup k = some v := by
  induction props with
  | nil => simp [propSet, hv, List.lookup]
  | cons kv rest ih =>
    obtain ⟨k1, w⟩ := kv
    by_cases hk : k1 = k
    · subst hk
      simp only [propSet, if_pos rfl]
      simp [List.filter_cons, hv, List.lookup]
    · have hbeq : (k == k1) = false := by
        simp only [beq_eq_false_iff_ne, ne_eq]
        exact fun h => hk h.symm
      simp only [propSet, if_neg hk]
      by_cases hp : pred (k1, w) <;>
        simp [List.filter_cons, hp, List.lookup, hbeq, ih]

/-- C3 counterexample: the KML import adapter performs no post-processing at
all, so a converter-supplied feature keeps its underscore-prefixed property
and gets no description copied from desc, contrary to the claim that KML
features are post-processed like GPX ones. -/
theorem c3_counterexample :
    Formatter.fromKML kmlSample = kmlSample ∧
    ((Formatter.fromKML kmlSample).features.headD ⟨.null, []⟩).properties.lookup
        "_private" = some (.str "x") ∧
    startsWithUnderscore "_private" = true ∧
    ((Formatter.fromKML kmlSample).features.headD ⟨.null, []⟩).properties.lookup
        "description" = none :=
  ⟨rfl, rfl, rfl, rfl⟩

/-- C3 (amended): every feature produced by the GPX import adapter has no
property whose key starts with the underscore prefix and none whose value is
of structured (object) type, and its description equals the converter-supplied
desc whenever that desc is not itself of structured type; the KML import
adapter, by contrast, returns the converter's features unchanged (no copy, no
stripping). -/
theorem c3_gpx_strips_kml_does_not (data : FeatureColl) :
    (∀ f2 ∈ (Formatter.fromGPX data).features, ∀ kv ∈ f2.properties,
      startsWithUnderscore kv.1 = false ∧ kv.2.isObjectType = false) ∧
    (∀ f : Feature, (propGet f.properties "desc").isObjectType = false →
      (Formatter.gpxCleanFeature f).properties.lookup "description" =
        some (propGet f.properties "desc")) ∧
    Formatter.fromKML data = data := by
  refine ⟨?_, ?_, rfl⟩
  · intro f2 hf2 kv hkv
    rw [Formatter.fromGPX] at hf2
    simp only [List.mem_map] at hf2
    obtain ⟨f, -, rfl⟩ := hf2
    rw [Formatter.gpxCleanFeature] at hkv
    simp only [List.mem_filter, Bool.not_or, Bool.and_eq_true,
      Bool.not_eq_true'] at hkv
    exact ⟨hkv.2.1, hkv.2.2⟩
  · intro f hdesc
    rw [Formatter.gpxCleanFeature]
    exact lookup_filter_propSet f.properties "description"
      (propGet f.properties "desc") _
      (by simp [hdesc, show startsWithUnderscore "description" = false from rfl])

/-- Witness for c3_gpx_strips_kml_does_not at a concrete feature: a feature
without a desc property gets a description property holding undefined. -/
theorem c3_gpx_strips_kml_does_not_witness :
    (propGet ([("name", .str "A")] : List (String × JsVal)) "desc").isObjectType
        = false ∧
    (Formatter.gpxCleanFeature ⟨.null, [("name", .str "A")]⟩).properties.lookup
        "description" = some (propGet [("name", .str "A")] "desc") :=
  ⟨rfl, (c3_gpx_strips_kml_does_not ⟨[]⟩).2.1 ⟨.null, [("name", .str "A")]⟩ rfl⟩

/-- C10 counterexample: when the converter supplies a structured (object)
desc, fromGPX's cleanup deletes the freshly written description as well, so
the returned feature has no description key at all, contrary to the claim that
every GPX-imported feature has one. -/
theorem c10_counterexample :
    ((Formatter.fromGPX ⟨[⟨.null, [("desc", .obj [])]⟩]⟩).features.headD
        ⟨.null, []⟩).properties.lookup "description" = none ∧
    ((Formatter.fromGPX ⟨[⟨.null, [("desc", .obj [])]⟩]⟩).features.headD
        ⟨.null, []⟩).properties = [] :=
  ⟨rfl, rfl⟩

/-- C10 (amended): the GPX import adapter post-processes every converter
feature with gpxCleanFeature, and whenever the converter-supplied desc is not
of structured (object) type — in particular whenever desc is absent — the
returned feature's properties contain a description key; when desc is absent
the key is created holding undefined rather than being omitted. -/
theorem c10_description_key (data : FeatureColl) :
    (Formatter.fromGPX data).features = data.features.map Formatter.gpxCleanFeature ∧
    (∀ f : Feature, (propGet f.properties "desc").isObjectType = false →
      (Formatter.gpxCleanFeature f).properties.lookup "description" =
        some (propGet f.properties "desc")) ∧
    (∀ f : Feature, f.properties.lookup "desc" = none →
      (Formatter.gpxCleanFeature f).properties.lookup "description" = some .undefVal) := by
  refine ⟨rfl, ?_, ?_⟩
  · intro f hdesc
    rw [Formatter.gpxCleanFeature]
    exact lookup_filter_propSet f.properties "description"
      (propGet f.properties "desc") _
      (by simp [hdesc, show startsWithUnderscore "description" = false from rfl])
  · intro f hnone
    have hget : propGet f.properties "desc" = .undefVal := by rw [propGet, hnone]
    rw [Formatter.gpxCleanFeature, hget]
    exact lookup_filter_propSet f.properties "description" .undefVal _
      (by simp [show startsWithUnderscore "description" = false from rfl,
        show JsVal.isUndefVal .undefVal = true from rfl, JsVal.isObjectType])

/-- Witness for c10_description_key at a concrete converter output. -/
theorem c10_description_key_witness :
    (([(("x", JsVal.str "y"))] : List (String × JsVal)).lookup "desc" = none) ∧
    (Formatter.gpxCleanFeature ⟨.null, [("x", .str "y")]⟩).properties.lookup
        "description" = some .undefVal :=
  ⟨rfl, (c10_description_key ⟨[]⟩).2.2 ⟨.null, [("x", .str "y")]⟩ rfl⟩

/-- C8: for every input text and every format tag outside the six known tags,
Formatter.parse falls out of the switch: the promise resolves with an
undefined result, and no error is raised (the result is neither a rejection
nor left pending). -/
theorem c8_unknown_format (c : Collaborators) (str : String) (format : String)
    (h : format ∉ (["geojson", "gpx", "kml", "csv", "osm", "georss"] : List String)) :
    Formatter.parse c str format = .resolved none := by
  simp only [List.mem_cons, List.not_mem_nil, or_false, not_or] at h
  obtain ⟨h1, h2, h3, h4, h5, h6⟩ := h
  rw [Formatter.parse, if_neg h4, if_neg h2, if_neg h3, if_neg h5, if_neg h6, if_neg h1]

/-- Witness for c8_unknown_format: the unknown tag xml resolves with
undefined. -/
theorem c8_unknown_format_witness :
    ("xml" ∉ (["geojson", "gpx", "kml", "csv", "osm", "georss"] : List String)) ∧
    Formatter.parse collabStub "a,b" "xml" = .resolved none :=
  ⟨by decide, c8_unknown_format collabStub "a,b" "xml" (by decide)⟩

/-- C9: for every CSV import in which the converter returns no result or a
result with zero features, the success callback is never invoked, so the
promise returned by Formatter.parse with the csv tag never settles: it is left
pending (neither resolved with undefined nor rejected). -/
theorem c9_csv_empty_pending (c : Collaborators) (str : String)
    (h : c.csvResult = none ∨ ∃ r, c.csvResult = some r ∧ r.features = []) :
    Formatter.parse c str "csv" = .pending := by
  have hd : (Formatter.fromCSVHandler c.wkt str c.csvErr c.csvResult).delivered
      = none := by
    rcases h with h | ⟨r, hr, hfe⟩
    · rw [h]; rfl
    · rw [hr]
      have : r.features.isEmpty = true := by rw [hfe]; rfl
      simp [Formatter.fromCSVHandler, this]
  rw [Formatter.parse, if_pos rfl, hd]

/-- Witness for c9_csv_empty_pending: a converter run with no result leaves
the csv promise pending. -/
theorem c9_csv_empty_pending_witness :
    collabStub.csvResult = none ∧
    Formatter.parse collabStub "a,b" "csv" = .pending :=
  ⟨rfl, c9_csv_empty_pending collabStub "a,b" (Or.inl rfl)⟩

/-- Every value has positive size. -/
theorem jsize_pos (v : JsVal) : 1 ≤ jsize v := by
  cases v <;> simp [jsize]

/-- Every element list has positive size. -/
theorem jsizeList_pos (vs : List JsVal) : 1 ≤ jsizeList vs := by
  cases vs <;> simp [jsizeList]

/-- Every field list has positive size. -/
theorem jsizeFields_pos (fs : List (String × JsVal)) : 1 ≤ jsizeFields fs := by
  cases fs with
  | nil => simp [jsizeFields]
  | cons kv fs => obtain ⟨k, v⟩ := kv; simp [jsizeFields]

/-- stripUndefVals is the identity on values without undefined. -/
theorem stripUndef_jsonOnly : ∀ v : JsVal, v.jsonOnly = true → stripUndefVals v = v := by
  refine jsValIndP (Q := fun vs => jsonOnlyList vs = true → stripElems vs = vs)
    (R := fun fs => jsonOnlyFields fs = true → stripFields fs = fs)
    ?_ ?_ ?_ ?_ ?_ ?_ ?_ ?_ ?_ ?_ ?_
  · intro h; cases h
  · intro _; rfl
  · intro b _; rfl
  · intro n _; rfl
  · intro s _; rfl
  · intro vs ih h
    rw [JsVal.jsonOnly] at h
    rw [stripUndefVals, ih h]
  · intro fs ih h
    rw [JsVal.jsonOnly] at h
    rw [stripUndefVals, ih h]
  · intro _; rfl
  · intro v vs ihv ihvs h
    rw [jsonOnlyList, Bool.and_eq_true] at h
    rw [stripElems, ihv h.1, ihvs h.2]
  · intro _; rfl
  · intro k v fs ihv ihfs h
    rw [jsonOnlyFields, Bool.and_eq_true] at h
    have hu : v.isUndefVal = false := by
      cases v <;> first | rfl | (exact absurd h.1 (by rw [JsVal.jsonOnly]; simp))
    rw [stripFields, hu]
    simp only [Bool.false_eq_true, if_false]
    rw [ihv h.1, ihfs h.2]

/-! Lemmas about decimal and string rendering versus the parser. -/
/-- Digit characters are digits. -/
theorem digitChar10_isDigit (n : Nat) : (digitChar10 n).isDigit = true := by
  unfold digitChar10
  split <;> decide

/-- Reading back a digit character below ten. -/
theorem digitVal_digitChar10 (n : Nat) (h : n < 10) :
    digitVal (digitChar10 n) = n := by
  interval_cases n <;> decide

/-- A digit character is distinct from any non-digit character. -/
theorem ne_of_isDigit {c c2 : Char} (h : c.isDigit = true) (h2 : c2.isDigit = false) :
    c ≠ c2 := fun he => by subst he; rw [h] at h2; cases h2

/-- The facts about a digit character the parser's branch analysis needs. -/
theorem isDigit_props (c : Char) (h : c.isDigit = true) :
    isWs c = false ∧ c ≠ 'n' ∧ c ≠ 't' ∧ c ≠ 'f' ∧ c ≠ '"' ∧ c ≠ '[' ∧
      c ≠ '{' ∧ c ≠ '-' ∧ c ≠ ']' ∧ c ≠ '}' := by
  refine ⟨?_, ne_of_isDigit h (by decide), ne_of_isDigit h (by decide),
    ne_of_isDigit h (by decide), ne_of_isDigit h (by decide),
    ne_of_isDigit h (by decide), ne_of_isDigit h (by decide),
    ne_of_isDigit h (by decide), ne_of_isDigit h (by decide),
    ne_of_isDigit h (by decide)⟩
  have h1 : c ≠ ' ' := ne_of_isDigit h (by decide)
  have h2 : c ≠ '\n' := ne_of_isDigit h (by decide)
  have h3 : c ≠ '\t' := ne_of_isDigit h (by decide)
  have h4 : c ≠ '\r' := ne_of_isDigit h (by decide)
  simp [isWs, h1, h2, h3, h4]

/-- The decimal rendering is never empty. -/
theorem natToChars_ne_nil (n : Nat) : natToChars n ≠ [] := by
  rw [natToChars_eq]
  by_cases h : n < 10 <;> simp [h]

/-- Every character of the decimal rendering is a digit. -/
theorem natToChars_all_digit : ∀ n : Nat, ∀ c ∈ natToChars n, c.isDigit = true := by
  intro n
  induction n using Nat.strong_induction_on with
  | _ n ih =>
    rw [natToChars_eq]
    by_cases h : n < 10
    · simp only [h, if_true, List.mem_singleton]
      rintro c rfl
      exact digitChar10_isDigit n
    · simp only [h, if_false, List.mem_append, List.mem_singleton]
      rintro c (hc | rfl)
      · exact ih (n / 10) (Nat.div_lt_self (by omega) (by omega)) c hc
      · exact digitChar10_isDigit (n % 10)

/-- The decimal rendering starts with a digit. -/
theorem natToChars_head (n : Nat) :
    ∃ c t, natToChars n = c :: t ∧ c.isDigit = true := by
  cases hx : natToChars n with
  | nil => exact absurd hx (natToChars_ne_nil n)
  | cons c t =>
    exact ⟨c, t, rfl, natToChars_all_digit n c (by rw [hx]; exact List.mem_cons_self c t)⟩

/-- Folding one more digit. -/
theorem digitsToNat_append (ds : List Char) (c : Char) :
    digitsToNat (ds ++ [c]) = digitsToNat ds * 10 + digitVal c := by
  simp [digitsToNat, List.foldl_append]

/-- Reading the decimal rendering back gives the number. -/
theorem digitsToNat_natToChars : ∀ n : Nat, digitsToNat (natToChars n) = n := by
  intro n
  induction n using Nat.strong_induction_on with
  | _ n ih =>
    rw [natToChars_eq]
    by_cases h : n < 10
    · simp only [h, if_true]
      show digitsToNat [digitChar10 n] = n
      simp [digitsToNat, digitVal_digitChar10 n h]
    · simp only [h, if_false]
      rw [digitsToNat_append, ih (n / 10) (Nat.div_lt_self (by omega) (by omega)),
        digitVal_digitChar10 (n % 10) (by omega)]
      omega

/-- parseDigits splits exactly at the end of an all-digit prefix. -/
theorem parseDigits_exact : ∀ ds rest, (∀ c ∈ ds, c.isDigit = true) → numOk rest →
    parseDigits (ds ++ rest) = (ds, rest) := by
  intro ds
  induction ds with
  | nil =>
    intro rest _ hrest
    cases rest with
    | nil => rfl
    | cons c t =>
      have hrest2 : c.isDigit = false := hrest
      show parseDigits (c :: t) = ([], c :: t)
      rw [parseDigits]
      simp [hrest2]
  | cons c ds ih =>
    intro rest hds hrest
    show parseDigits (c :: (ds ++ rest)) = (c :: ds, rest)
    rw [parseDigits]
    simp only [hds c (List.mem_cons_self c ds), if_true]
    rw [ih rest (fun x hx => hds x (List.mem_cons_of_mem c hx)) hrest]

/-- Reading back a rendered hex digit. -/
theorem hexVal_hexChar16 (m : Nat) (h : m < 16) : hexVal (hexChar16 m) = some m := by
  interval_cases m <;> decide

/-- Skipping whitespace past a whitespace character. -/
theorem skipWs_cons_ws (c : Char) (l : List Char) (h : isWs c = true) :
    skipWs (c :: l) = skipWs l := by
  rw [skipWs, if_pos h]

/-- Skipping whitespace stops at a non-whitespace character. -/
theorem skipWs_cons_not (c : Char) (l : List Char) (h : isWs c = false) :
    skipWs (c :: l) = c :: l := by
  rw [skipWs]
  simp [h]

/-- Skipping whitespace past an indentation run. -/
theorem skipWs_indent (n : Nat) (l : List Char) :
    skipWs (indentChars n ++ l) = skipWs l := by
  induction n with
  | zero => rfl
  | succ n ih =>
    show skipWs (' ' :: (indentChars n ++ l)) = skipWs l
    rw [skipWs_cons_ws ' ' _ (by decide), ih]

/-- The string-body parser at a closing quote. -/
theorem parseStrBody_quote (rest : List Char) :
    parseStrBody ('"' :: rest) = some ([], rest) := by
  rw [parseStrBody.eq_def]; rfl

/-- The string-body parser at an escaped quote. -/
theorem parseStrBody_esc_quote (X : List Char) :
    parseStrBody ('\\' :: '"' :: X) =
      (parseStrBody X).map (fun p => ('"' :: p.1, p.2)) := by
  rw [parseStrBody.eq_def]; rfl

/-- The string-body parser at an escaped backslash. -/
theorem parseStrBody_esc_backslash (X : List Char) :
    parseStrBody ('\\' :: '\\' :: X) =
      (parseStrBody X).map (fun p => ('\\' :: p.1, p.2)) := by
  rw [parseStrBody.eq_def]; rfl

/-- The string-body parser at an escaped backspace. -/
theorem parseStrBody_esc_b (X : List Char) :
    parseStrBody ('\\' :: 'b' :: X) =
      (parseStrBody X).map (fun p => ('\x08' :: p.1, p.2)) := by
  rw [parseStrBody.eq_def]; rfl

/-- The string-body parser at an escaped tab. -/
theorem parseStrBody_esc_t (X : List Char) :
    parseStrBody ('\\' :: 't' :: X) =
      (parseStrBody X).map (fun p => ('\x09' :: p.1, p.2)) := by
  rw [parseStrBody.eq_def]; rfl

/-- The string-body parser at an escaped newline. -/
theorem parseStrBody_esc_n (X : List Char) :
    parseStrBody ('\\' :: 'n' :: X) =
      (parseStrBody X).map (fun p => ('\x0a' :: p.1, p.2)) := by
  rw [parseStrBody.eq_def]; rfl

/-- The string-body parser at an escaped form feed. -/
theorem parseStrBody_esc_f (X : List Char) :
    parseStrBody ('\\' :: 'f' :: X) =
      (parseStrBody X).map (fun p => ('\x0c' :: p.1, p.2)) := by
  rw [parseStrBody.eq_def]; rfl

/-- The string-body parser at an escaped carriage return. -/
theorem parseStrBody_esc_r (X : List Char) :
    parseStrBody ('\\' :: 'r' :: X) =
      (parseStrBody X).map (fun p => ('\x0d' :: p.1, p.2)) := by
  rw [parseStrBody.eq_def]; rfl

/-- The string-body parser at a unicode escape. -/
theorem parseStrBody_esc_u (x y : Char) (X : List Char) (a b : Nat)
    (hx : hexVal x = some a) (hy : hexVal y = some b) :
    parseStrBody ('\\' :: 'u' :: '0' :: '0' :: x :: y :: X) =
      (parseStrBody X).map
        (fun p => (Char.ofNat (((0 * 16 + 0) * 16 + a) * 16 + b) :: p.1, p.2)) := by
  rw [parseStrBody.eq_def]
  simp only [show (('\\' : Char) = '"') = False by simp,
    show (('\\' : Char) = '\\') = True by simp, if_false, if_true]
  simp only [show (('u' : Char) = '"') = False by simp,
    show (('u' : Char) = '\\') = False by simp,
    show (('u' : Char) = '/') = False by simp,
    show (('u' : Char) = 'b') = False by simp,
    show (('u' : Char) = 't') = False by simp,
    show (('u' : Char) = 'n') = False by simp,
    show (('u' : Char) = 'f') = False by simp,
    show (('u' : Char) = 'r') = False by simp,
    show (('u' : Char) = 'u') = True by simp, if_false, if_true]
  rw [hx, hy]
  rfl

/-- The string-body parser at an unescaped ordinary character. -/
theorem parseStrBody_other (c : Char) (X : List Char) (h1 : c ≠ '"') (h2 : c ≠ '\\') :
    parseStrBody (c :: X) = (parseStrBody X).map (fun p => (c :: p.1, p.2)) := by
  rw [parseStrBody.eq_def]
  simp only [if_neg h1, if_neg h2]

/-- Unescaping a rendered string body recovers exactly the original
characters. -/
theorem parseStrBody_escList : ∀ cs rest : List Char,
    parseStrBody (escList cs ++ '"' :: rest) = some (cs, rest) := by
  intro cs
  induction cs with
  | nil =>
    intro rest
    show parseStrBody ('"' :: rest) = some ([], rest)
    exact parseStrBody_quote rest
  | cons c cs ih =>
    intro rest
    show parseStrBody (escChar c ++ escList cs ++ '"' :: rest) = some (c :: cs, rest)
    rw [escChar]
    by_cases h1 : c = '"'
    · subst h1
      rw [if_pos rfl]
      show parseStrBody ('\\' :: '"' :: (escList cs ++ '"' :: rest)) = _
      rw [parseStrBody_esc_quote, ih rest]
      rfl
    rw [if_neg h1]
    by_cases h2 : c = '\\'
    · subst h2
      rw [if_pos rfl]
      show parseStrBody ('\\' :: '\\' :: (escList cs ++ '"' :: rest)) = _
      rw [parseStrBody_esc_backslash, ih rest]
      rfl
    rw [if_neg h2]
    by_cases h3 : c = '\x08'
    · subst h3
      rw [if_pos rfl]
      show parseStrBody ('\\' :: 'b' :: (escList cs ++ '"' :: rest)) = _
      rw [parseStrBody_esc_b, ih rest]
      rfl
    rw [if_neg h3]
    by_cases h4 : c = '\x09'
    · subst h4
      rw [if_pos rfl]
      show parseStrBody ('\\' :: 't' :: (escList cs ++ '"' :: rest)) = _
      rw [parseStrBody_esc_t, ih rest]
      rfl
    rw [if_neg h4]
    by_cases h5 : c = '\x0a'
    · subst h5
      rw [if_pos rfl]
      show parseStrBody ('\\' :: 'n' :: (escList cs ++ '"' :: rest)) = _
      rw [parseStrBody_esc_n, ih rest]
      rfl
    rw [if_neg h5]
    by_cases h6 : c = '\x0c'
    · subst h6
      rw [if_pos rfl]
      show parseStrBody ('\\' :: 'f' :: (escList cs ++ '"' :: rest)) = _
      rw [parseStrBody_esc_f, ih rest]
      rfl
    rw [if_neg h6]
    by_cases h7 : c = '\x0d'
    · subst h7
      rw [if_pos rfl]
      show parseStrBody ('\\' :: 'r' :: (escList cs ++ '"' :: rest)) = _
      rw [parseStrBody_esc_r, ih rest]
      rfl
    rw [if_neg h7]
    by_cases h8 : c.toNat < 32
    · rw [if_pos h8]
      show parseStrBody ('\\' :: 'u' :: '0' :: '0' :: hexChar16 (c.toNat / 16) ::
        hexChar16 (c.toNat % 16) :: (escList cs ++ '"' :: rest)) = _
      rw [parseStrBody_esc_u (hexChar16 (c.toNat / 16)) (hexChar16 (c.toNat % 16))
        (escList cs ++ '"' :: rest) (c.toNat / 16) (c.toNat % 16)
        (hexVal_hexChar16 (c.toNat / 16) (by omega))
        (hexVal_hexChar16 (c.toNat % 16) (by omega)), ih rest]
      have harith : ((0 * 16 + 0) * 16 + c.toNat / 16) * 16 + c.toNat % 16 = c.toNat := by
        omega
      rw [harith, Char.ofNat_toNat]
      rfl
    · rw [if_neg h8]
      show parseStrBody (c :: (escList cs ++ '"' :: rest)) = _
      rw [parseStrBody_other c _ h1 h2, ih rest]
      rfl

/-- The parser with no fuel fails. -/
theorem parseVal_zero (input : List Char) : parseVal 0 input = none := by
  rw [parseVal.eq_def]

/-- One step of the value parser. -/
theorem parseVal_succ (fuel : Nat) (input : List Char) :
    parseVal (fuel + 1) input =
      (match skipWs input with
       | [] => none
       | c :: rest =>
         if c = 'n' then
           match rest with
           | 'u' :: 'l' :: 'l' :: r => some (.null, r)
           | _ => none
         else if c = 't' then
           match rest with
           | 'r' :: 'u' :: 'e' :: r => some (.bool true, r)
           | _ => none
         else if c = 'f' then
           match rest with
           | 'a' :: 'l' :: 's' :: 'e' :: r => some (.bool false, r)
           | _ => none
         else if c = '"' then
           (parseStrBody rest).map (fun p => (.str (String.mk p.1), p.2))
         else if c = '[' then
           match skipWs rest with
           | [] => none
           | c2 :: r =>
             if c2 = ']' then some (.arr [], r)
             else (parseElems fuel rest).map (fun p => (.arr p.1, p.2))
         else if c = '{' then
           match skipWs rest with
           | [] => none
           | c2 :: r =>
             if c2 = '}' then some (.obj [], r)
             else (parseFieldList fuel rest).map (fun p => (.obj p.1, p.2))
         else if c = '-' then
           match parseDigits rest with
           | ([], _) => none
           | (ds, r) => some (.num (-(digitsToNat ds : Int)), r)
         else if c.isDigit then
           match parseDigits (c :: rest) with
           | (ds, r) => some (.num (digitsToNat ds : Int), r)
         else none) := by
  rw [parseVal.eq_def]

/-- The value parser ignores a leading whitespace character. -/
theorem parseVal_ws (fuel : Nat) (c : Char) (l : List Char) (h : isWs c = true) :
    parseVal fuel (c :: l) = parseVal fuel l := by
  cases fuel with
  | zero => rw [parseVal_zero, parseVal_zero]
  | succ fuel =>
    rw [parseVal_succ, parseVal_succ, skipWs_cons_ws c l h]

/-- The value parser ignores leading indentation. -/
theorem parseVal_indent (fuel n : Nat) (l : List Char) :
    parseVal fuel (indentChars n ++ l) = parseVal fuel l := by
  induction n with
  | zero => rfl
  | succ n ih =>
    show parseVal fuel (' ' :: (indentChars n ++ l)) = parseVal fuel l
    rw [parseVal_ws fuel ' ' _ (by decide), ih]

/-- The value parser at a null literal. -/
theorem parseVal_lit_null (fuel : Nat) (rest : List Char) :
    parseVal (fuel + 1) ('n' :: 'u' :: 'l' :: 'l' :: rest) = some (.null, rest) := by
  rw [parseVal_succ, skipWs_cons_not 'n' _ (by decide)]; rfl

/-- The value parser at a true literal. -/
theorem parseVal_lit_true (fuel : Nat) (rest : List Char) :
    parseVal (fuel + 1) ('t' :: 'r' :: 'u' :: 'e' :: rest) =
      some (.bool true, rest) := by
  rw [parseVal_succ, skipWs_cons_not 't' _ (by decide)]; rfl

/-- The value parser at a false literal. -/
theorem parseVal_lit_false (fuel : Nat) (rest : List Char) :
    parseVal (fuel + 1) ('f' :: 'a' :: 'l' :: 's' :: 'e' :: rest) =
      some (.bool false, rest) := by
  rw [parseVal_succ, skipWs_cons_not 'f' _ (by decide)]; rfl

/-- The value parser at an opening quote. -/
theorem parseVal_str (fuel : Nat) (l : List Char) :
    parseVal (fuel + 1) ('"' :: l) =
      (parseStrBody l).map (fun p => (.str (String.mk p.1), p.2)) := by
  rw [parseVal_succ, skipWs_cons_not '"' _ (by decide)]; rfl

/-- The value parser at an opening bracket. -/
theorem parseVal_arr (fuel : Nat) (l : List Char) :
    parseVal (fuel + 1) ('[' :: l) =
      (match skipWs l with
       | [] => none
       | c2 :: r =>
         if c2 = ']' then some (.arr [], r)
         else (parseElems fuel l).map (fun p => (.arr p.1, p.2))) := by
  rw [parseVal_succ, skipWs_cons_not '[' _ (by decide)]; rfl

/-- The value parser at an opening brace. -/
theorem parseVal_obj (fuel : Nat) (l : List Char) :
    parseVal (fuel + 1) ('{' :: l) =
      (match skipWs l with
       | [] => none
       | c2 :: r =>
         if c2 = '}' then some (.obj [], r)
         else (parseFieldList fuel l).map (fun p => (.obj p.1, p.2))) := by
  rw [parseVal_succ, skipWs_cons_not '{' _ (by decide)]; rfl

/-- The value parser at a minus sign. -/
theorem parseVal_minus (fuel : Nat) (l : List Char) :
    parseVal (fuel + 1) ('-' :: l) =
      (match parseDigits l with
       | ([], _) => none
       | (ds, r) => some (.num (-(digitsToNat ds : Int)), r)) := by
  rw [parseVal_succ, skipWs_cons_not '-' _ (by decide)]; rfl

/-- The value parser at a digit. -/
theorem parseVal_digit (fuel : Nat) (c : Char) (l : List Char) (h : c.isDigit = true) :
    parseVal (fuel + 1) (c :: l) =
      (match parseDigits (c :: l) with
       | (ds, r) => some (.num (digitsToNat ds : Int), r)) := by
  obtain ⟨hw, hn, ht, hf, hq, hb, hc2, hm, -, -⟩ := isDigit_props c h
  rw [parseVal_succ, skipWs_cons_not c _ hw]
  simp only [if_neg hn, if_neg ht, if_neg hf, if_neg hq, if_neg hb, if_neg hc2,
    if_neg hm, h, if_true]

/-- The element parser with no fuel fails. -/
theorem parseElems_zero (input : List Char) : parseElems 0 input = none := by
  rw [parseElems.eq_def]

/-- One step of the element parser. -/
theorem parseElems_succ (fuel : Nat) (input : List Char) :
    parseElems (fuel + 1) input =
      (match parseVal fuel input with
       | none => none
       | some (v, r1) =>
         match skipWs r1 with
         | [] => none
         | c :: r2 =>
           if c = ',' then (parseElems fuel r2).map (fun p => (v :: p.1, p.2))
           else if c = ']' then some ([v], r2)
           else none) := by
  rw [parseElems.eq_def]

/-- The element parser ignores a leading whitespace character. -/
theorem parseElems_ws (fuel : Nat) (c : Char) (l : List Char) (h : isWs c = true) :
    parseElems fuel (c :: l) = parseElems fuel l := by
  cases fuel with
  | zero => rw [parseElems_zero, parseElems_zero]
  | succ fuel => rw [parseElems_succ, parseElems_succ, parseVal_ws fuel c l h]

/-- The field parser with no fuel fails. -/
theorem parseFieldList_zero (input : List Char) : parseFieldList 0 input = none := by
  rw [parseFieldList.eq_def]

/-- One step of the field parser. -/
theorem parseFieldList_succ (fuel : Nat) (input : List Char) :
    parseFieldList (fuel + 1) input =
      (match skipWs input with
       | [] => none
       | c :: rest =>
         if c = '"' then
           match parseStrBody rest with
           | none => none
           | some (kcs, r1) =>
             match skipWs r1 with
             | [] => none
             | c2 :: r2 =>
               if c2 = ':' then
                 match parseVal fuel r2 with
                 | none => none
                 | some (v, r3) =>
                   match skipWs r3 with
                   | [] => none
                   | c3 :: r4 =>
                     if c3 = ',' then
                       (parseFieldList fuel r4).map
                         (fun p => ((String.mk kcs, v) :: p.1, p.2))
                     else if c3 = '}' then some ([(String.mk kcs, v)], r4)
                     else none
               else none
         else none) := by
  rw [parseFieldList.eq_def]

/-- The field parser ignores a leading whitespace character. -/
theorem parseFieldList_ws (fuel : Nat) (c : Char) (l : List Char) (h : isWs c = true) :
    parseFieldList fuel (c :: l) = parseFieldList fuel l := by
  cases fuel with
  | zero => rw [parseFieldList_zero, parseFieldList_zero]
  | succ fuel => rw [parseFieldList_succ, parseFieldList_succ, skipWs_cons_ws c l h]

/-- Parsing a rendered integer. -/
theorem parseVal_num (g : Nat) (n : Int) (rest : List Char) (h : numOk rest) :
    parseVal (g + 1) (intToChars n ++ rest) = some (.num n, rest) := by
  rw [intToChars]
  by_cases hn : n < 0
  · rw [if_pos hn]
    obtain ⟨c, t, hct, hcd⟩ := natToChars_head n.natAbs
    show parseVal (g + 1) ('-' :: (natToChars n.natAbs ++ rest)) = _
    rw [parseVal_minus, parseDigits_exact (natToChars n.natAbs) rest
      (natToChars_all_digit n.natAbs) h, hct]
    have hd : digitsToNat (c :: t) = n.natAbs := by
      rw [← hct, digitsToNat_natToChars]
    show some (JsVal.num (-(digitsToNat (c :: t) : Int)), rest)
      = some (JsVal.num n, rest)
    rw [hd]
    have hval : -((n.natAbs : Int)) = n := by omega
    rw [hval]
  · rw [if_neg hn]
    obtain ⟨c, t, hct, hcd⟩ := natToChars_head n.toNat
    rw [hct]
    show parseVal (g + 1) (c :: (t ++ rest)) = _
    rw [parseVal_digit g c _ hcd]
    rw [show c :: (t ++ rest) = (c :: t) ++ rest from rfl]
    rw [parseDigits_exact (c :: t) rest
      (by rw [← hct]; exact natToChars_all_digit n.toNat) h]
    have hd : digitsToNat (c :: t) = n.toNat := by
      rw [← hct, digitsToNat_natToChars]
    show some (JsVal.num ((digitsToNat (c :: t) : Int)), rest)
      = some (JsVal.num n, rest)
    rw [hd]
    have hval : ((n.toNat : Int)) = n := by omega
    rw [hval]

/-- Every rendered value starts with a non-whitespace character that is
neither a closing bracket nor a closing brace. -/
theorem renderVal_head (d : Nat) (v : JsVal) :
    ∃ c t, renderVal d v = c :: t ∧ isWs c = false ∧ c ≠ ']' ∧ c ≠ '}' := by
  cases v with
  | undefVal => refine ⟨'n', _, rfl, ?_, ?_, ?_⟩ <;> decide
  | null => refine ⟨'n', _, rfl, ?_, ?_, ?_⟩ <;> decide
  | bool b =>
    cases b with
    | true => refine ⟨'t', _, rfl, ?_, ?_, ?_⟩ <;> decide
    | false => refine ⟨'f', _, rfl, ?_, ?_, ?_⟩ <;> decide
  | num n =>
    show ∃ c t, intToChars n = c :: t ∧ _
    rw [intToChars]
    by_cases hn : n < 0
    · rw [if_pos hn]
      refine ⟨'-', _, rfl, ?_, ?_, ?_⟩ <;> decide
    · rw [if_neg hn]
      obtain ⟨c, t, hct, hcd⟩ := natToChars_head n.toNat
      obtain ⟨hw, -, -, -, -, -, -, -, h1, h2⟩ := isDigit_props c hcd
      exact ⟨c, t, hct, hw, h1, h2⟩
  | str s => refine ⟨'"', _, rfl, ?_, ?_, ?_⟩ <;> decide
  | arr vs =>
    cases vs with
    | nil => refine ⟨'[', _, rfl, ?_, ?_, ?_⟩ <;> decide
    | cons v vs => refine ⟨'[', _, rfl, ?_, ?_, ?_⟩ <;> decide
  | obj fs =>
    cases fs with
    | nil => refine ⟨'{', _, rfl, ?_, ?_, ?_⟩ <;> decide
    | cons f fs => refine ⟨'{', _, rfl, ?_, ?_, ?_⟩ <;> decide

/-- The shape of a non-empty rendered element list. -/
theorem renderElems_cons (d : Nat) (v : JsVal) (vs : List JsVal) :
    ∃ mid, renderElems d (v :: vs) =
      indentChars (2 * (d + 1)) ++ (renderVal (d + 1) v ++ mid) := by
  cases vs with
  | nil => exact ⟨[], by simp [renderElems]⟩
  | cons v2 vs => exact ⟨',' :: '\n' :: renderElems d (v2 :: vs), rfl⟩

/-- The shape of a non-empty rendered field list. -/
theorem renderFields_cons (d : Nat) (k : String) (v : JsVal)
    (fs : List (String × JsVal)) :
    ∃ mid, renderFields d ((k, v) :: fs) =
      indentChars (2 * (d + 1)) ++
        (renderString k ++ ':' :: ' ' :: (renderVal (d + 1) v ++ mid)) := by
  cases fs with
  | nil => exact ⟨[], by simp [renderFields]⟩
  | cons f fs => exact ⟨',' :: '\n' :: renderFields d (f :: fs), rfl⟩

/-- Skipping whitespace over a rendered non-empty element list reaches a
character that closes nothing. -/
theorem skipWs_renderElems (d : Nat) (v : JsVal) (vs : List JsVal) (X : List Char) :
    ∃ c t, skipWs (renderElems d (v :: vs) ++ X) = c :: t ∧ c ≠ ']' ∧ c ≠ '}' := by
  obtain ⟨mid, hmid⟩ := renderElems_cons d v vs
  obtain ⟨c, t, hct, hw, h1, h2⟩ := renderVal_head (d + 1) v
  rw [hmid, List.append_assoc, skipWs_indent, List.append_assoc, hct]
  rw [show (c :: t) ++ (mid ++ X) = c :: (t ++ (mid ++ X)) from rfl,
    skipWs_cons_not c _ hw]
  exact ⟨c, t ++ (mid ++ X), rfl, h1, h2⟩

/-- Skipping whitespace over a rendered non-empty field list reaches the
opening quote of the first key. -/
theorem skipWs_renderFields (d : Nat) (k : String) (v : JsVal)
    (fs : List (String × JsVal)) (X : List Char) :
    ∃ t, skipWs (renderFields d ((k, v) :: fs) ++ X) = '"' :: t := by
  obtain ⟨mid, hmid⟩ := renderFields_cons d k v fs
  rw [hmid, List.append_assoc, skipWs_indent]
  rw [show renderString k ++ ':' :: ' ' :: (renderVal (d + 1) v ++ mid)
      = '"' :: ((escList k.data ++ ['"']) ++ ':' :: ' ' :: (renderVal (d + 1) v ++ mid))
    from rfl]
  rw [show ('"' :: ((escList k.data ++ ['"']) ++ ':' :: ' ' :: (renderVal (d + 1) v ++ mid))) ++ X
      = '"' :: (((escList k.data ++ ['"']) ++ ':' :: ' ' :: (renderVal (d + 1) v ++ mid)) ++ X)
    from rfl]
  rw [skipWs_cons_not '"' _ (by decide)]
  exact ⟨_, rfl⟩

/-- Normalizing the tail of a rendered block against outer input. -/
theorem append_close_norm (A I rest : List Char) (c : Char) :
    (A ++ '\n' :: (I ++ [c])) ++ rest = A ++ '\n' :: (I ++ c :: rest) := by
  rw [List.append_assoc]
  simp

/-- The array branch of the value parser when the lookahead is not a closing
bracket. -/
theorem parseVal_arr_step (g : Nat) (l : List Char) (c : Char) (t : List Char)
    (hskip : skipWs l = c :: t) (hc : c ≠ ']') :
    parseVal (g + 1) ('[' :: l) =
      (parseElems g l).map (fun p => (.arr p.1, p.2)) := by
  rw [parseVal_arr, hskip]
  show (if c = ']' then some (JsVal.arr [], t)
      else (parseElems g l).map (fun p => (JsVal.arr p.1, p.2)))
    = (parseElems g l).map (fun p => (JsVal.arr p.1, p.2))
  rw [if_neg hc]

/-- The object branch of the value parser when the lookahead is not a closing
brace. -/
theorem parseVal_obj_step (g : Nat) (l : List Char) (c : Char) (t : List Char)
    (hskip : skipWs l = c :: t) (hc : c ≠ '}') :
    parseVal (g + 1) ('{' :: l) =
      (parseFieldList g l).map (fun p => (.obj p.1, p.2)) := by
  rw [parseVal_obj, hskip]
  show (if c = '}' then some (JsVal.obj [], t)
      else (parseFieldList g l).map (fun p => (JsVal.obj p.1, p.2)))
    = (parseFieldList g l).map (fun p => (JsVal.obj p.1, p.2))
  rw [if_neg hc]

/-- One resolved step of the element parser. -/
theorem parseElems_step (g : Nat) (input r1 r2 : List Char) (v : JsVal) (c : Char)
    (hv : parseVal g input = some (v, r1)) (hskip : skipWs r1 = c :: r2) :
    parseElems (g + 1) input =
      (if c = ',' then (parseElems g r2).map (fun p => (v :: p.1, p.2))
       else if c = ']' then some ([v], r2)
       else none) := by
  simp only [parseElems_succ, hv, hskip]

/-- One resolved step of the field parser. -/
theorem parseFieldList_step (g : Nat) (input rest0 r1 r2 r3 r4 : List Char)
    (kcs : List Char) (v : JsVal) (c3 : Char)
    (h0 : skipWs input = '"' :: rest0)
    (h1 : parseStrBody rest0 = some (kcs, r1))
    (h2 : skipWs r1 = ':' :: r2)
    (h3 : parseVal g r2 = some (v, r3))
    (h4 : skipWs r3 = c3 :: r4) :
    parseFieldList (g + 1) input =
      (if c3 = ',' then
        (parseFieldList g r4).map (fun p => ((String.mk kcs, v) :: p.1, p.2))
       else if c3 = '}' then some ([(String.mk kcs, v)], r4)
       else none) := by
  simp only [parseFieldList_succ, h0, h1, h2, h3, h4]
  rfl

/-- The pretty-printed rendering of any JSON-representable value parses back
to exactly that value (with matching fuel bounds), and likewise for rendered
element lists and field lists followed by their closing delimiter. -/
theorem parse_render_all : ∀ fuel : Nat,
    (∀ (v : JsVal) (d : Nat) (rest : List Char), jsize v ≤ fuel →
      v.jsonOnly = true → numOk rest →
      parseVal fuel (renderVal d v ++ rest) = some (v, rest)) ∧
    (∀ (vs : List JsVal) (d : Nat) (rest : List Char), vs ≠ [] →
      jsizeList vs ≤ fuel → jsonOnlyList vs = true →
      parseElems fuel
        (renderElems d vs ++ '\n' :: (indentChars (2 * d) ++ ']' :: rest)) =
        some (vs, rest)) ∧
    (∀ (fs : List (String × JsVal)) (d : Nat) (rest : List Char), fs ≠ [] →
      jsizeFields fs ≤ fuel → jsonOnlyFields fs = true →
      parseFieldList fuel
        (renderFields d fs ++ '\n' :: (indentChars (2 * d) ++ '}' :: rest)) =
        some (fs, rest)) := by
  intro fuel
  induction fuel using Nat.strong_induction_on with
  | _ fuel ih =>
  refine ⟨?_, ?_, ?_⟩
  · intro v d rest hsz hjson hrest
    cases fuel with
    | zero => exact absurd hsz (by have := jsize_pos v; omega)
    | succ g =>
      cases v with
      | undefVal =>
        exact absurd hjson (by rw [show JsVal.jsonOnly .undefVal = false from rfl]; simp)
      | null => exact parseVal_lit_null g rest
      | bool b =>
        cases b with
        | true => exact parseVal_lit_true g rest
        | false => exact parseVal_lit_false g rest
      | num n => exact parseVal_num g n rest hrest
      | str s =>
        have hin : renderVal d (.str s) ++ rest
            = '"' :: (escList s.data ++ '"' :: rest) := by
          show ('"' :: (escList s.data ++ ['"'])) ++ rest = _
          rw [show ('"' :: (escList s.data ++ ['"'])) ++ rest
            = '"' :: ((escList s.data ++ ['"']) ++ rest) from rfl, List.append_assoc]
          rfl
        rw [hin, parseVal_str, parseStrBody_escList s.data rest]
        rfl
      | arr vs =>
        cases vs with
        | nil =>
          show parseVal (g + 1) ('[' :: ']' :: rest) = some (.arr [], rest)
          rw [parseVal_arr, skipWs_cons_not ']' _ (by decide)]
          rfl
        | cons v vs2 =>
          have hsz2 : jsizeList (v :: vs2) ≤ g := by
            rw [show jsize (.arr (v :: vs2)) = jsizeList (v :: vs2) + 1 from rfl] at hsz
            omega
          have hjson2 : jsonOnlyList (v :: vs2) = true := hjson
          have hin : renderVal d (.arr (v :: vs2)) ++ rest
              = '[' :: '\n' :: (renderElems d (v :: vs2)
                  ++ '\n' :: (indentChars (2 * d) ++ ']' :: rest)) := by
            show ('[' :: '\n' :: (renderElems d (v :: vs2)
                ++ '\n' :: (indentChars (2 * d) ++ [']']))) ++ rest = _
            rw [show ('[' :: '\n' :: (renderElems d (v :: vs2)
                ++ '\n' :: (indentChars (2 * d) ++ [']']))) ++ rest
              = '[' :: '\n' :: ((renderElems d (v :: vs2)
                ++ '\n' :: (indentChars (2 * d) ++ [']'])) ++ rest) from rfl]
            rw [append_close_norm]
          rw [hin]
          obtain ⟨c, t, hct, h1, h2⟩ := skipWs_renderElems d v vs2
            ('\n' :: (indentChars (2 * d) ++ ']' :: rest))
          rw [parseVal_arr_step g _ c t
            (by rw [skipWs_cons_ws '\n' _ (by decide)]; exact hct) h1]
          rw [parseElems_ws g '\n' _ (by decide)]
          rw [(ih g (by omega)).2.1 (v :: vs2) d rest (by simp) hsz2 hjson2]
          rfl
      | obj fs =>
        cases fs with
        | nil =>
          show parseVal (g + 1) ('{' :: '}' :: rest) = some (.obj [], rest)
          rw [parseVal_obj, skipWs_cons_not '}' _ (by decide)]
          rfl
        | cons f fs2 =>
          obtain ⟨k, v⟩ := f
          have hsz2 : jsizeFields ((k, v) :: fs2) ≤ g := by
            rw [show jsize (.obj ((k, v) :: fs2))
              = jsizeFields ((k, v) :: fs2) + 1 from rfl] at hsz
            omega
          have hjson2 : jsonOnlyFields ((k, v) :: fs2) = true := hjson
          have hin : renderVal d (.obj ((k, v) :: fs2)) ++ rest
              = '{' :: '\n' :: (renderFields d ((k, v) :: fs2)
                  ++ '\n' :: (indentChars (2 * d) ++ '}' :: rest)) := by
            show ('{' :: '\n' :: (renderFields d ((k, v) :: fs2)
                ++ '\n' :: (indentChars (2 * d) ++ ['}']))) ++ rest = _
            rw [show ('{' :: '\n' :: (renderFields d ((k, v) :: fs2)
                ++ '\n' :: (indentChars (2 * d) ++ ['}']))) ++ rest
              = '{' :: '\n' :: ((renderFields d ((k, v) :: fs2)
                ++ '\n' :: (indentChars (2 * d) ++ ['}'])) ++ rest) from rfl]
            rw [append_close_norm]
          rw [hin]
          obtain ⟨t, hct⟩ := skipWs_renderFields d k v fs2
            ('\n' :: (indentChars (2 * d) ++ '}' :: rest))
          rw [parseVal_obj_step g _ '"' t
            (by rw [skipWs_cons_ws '\n' _ (by decide)]; exact hct) (by decide)]
          rw [parseFieldList_ws g '\n' _ (by decide)]
          rw [(ih g (by omega)).2.2 ((k, v) :: fs2) d rest (by simp) hsz2 hjson2]
          rfl
  · intro vs d rest hne hsz hjson
    cases fuel with
    | zero => exact absurd hsz (by have := jsizeList_pos vs; omega)
    | succ g =>
      cases vs with
      | nil => exact absurd rfl hne
      | cons v vs2 =>
        have hjv : v.jsonOnly = true ∧ jsonOnlyList vs2 = true := by
          rw [show jsonOnlyList (v :: vs2)
            = (v.jsonOnly && jsonOnlyList vs2) from rfl] at hjson
          exact ⟨by simp at hjson; exact hjson.1, by simp at hjson; exact hjson.2⟩
        have hszv : jsize v ≤ g ∧ jsizeList vs2 ≤ g := by
          rw [show jsizeList (v :: vs2) = jsize v + jsizeList vs2 + 1 from rfl] at hsz
          have := jsize_pos v
          have := jsizeList_pos vs2
          omega
        cases vs2 with
        | nil =>
          have hin : renderElems d [v] ++ '\n' :: (indentChars (2 * d) ++ ']' :: rest)
              = indentChars (2 * (d + 1)) ++ (renderVal (d + 1) v
                  ++ '\n' :: (indentChars (2 * d) ++ ']' :: rest)) := by
            show (indentChars (2 * (d + 1)) ++ renderVal (d + 1) v)
                ++ '\n' :: (indentChars (2 * d) ++ ']' :: rest) = _
            rw [List.append_assoc]
          rw [hin]
          have hv : parseVal g (indentChars (2 * (d + 1)) ++ (renderVal (d + 1) v
              ++ '\n' :: (indentChars (2 * d) ++ ']' :: rest)))
              = some (v, '\n' :: (indentChars (2 * d) ++ ']' :: rest)) := by
            rw [parseVal_indent]
            exact (ih g (by omega)).1 v (d + 1) _ hszv.1 hjv.1 (by exact (by decide : ('\n').isDigit = false))
          rw [parseElems_step g _ _ rest v ']' hv
            (by rw [skipWs_cons_ws '\n' _ (by decide), skipWs_indent,
              skipWs_cons_not ']' _ (by decide)])]
          rw [if_neg (by decide), if_pos rfl]
        | cons v2 vs3 =>
          have hin : renderElems d (v :: v2 :: vs3)
                ++ '\n' :: (indentChars (2 * d) ++ ']' :: rest)
              = indentChars (2 * (d + 1)) ++ (renderVal (d + 1) v
                  ++ ',' :: '\n' :: (renderElems d (v2 :: vs3)
                    ++ '\n' :: (indentChars (2 * d) ++ ']' :: rest))) := by
            show (indentChars (2 * (d + 1)) ++ (renderVal (d + 1) v
                ++ ',' :: '\n' :: renderElems d (v2 :: vs3)))
                ++ '\n' :: (indentChars (2 * d) ++ ']' :: rest) = _
            rw [List.append_assoc, List.append_assoc]
            rfl
          rw [hin]
          have hv : parseVal g (indentChars (2 * (d + 1)) ++ (renderVal (d + 1) v
              ++ ',' :: '\n' :: (renderElems d (v2 :: vs3)
                ++ '\n' :: (indentChars (2 * d) ++ ']' :: rest))))
              = some (v, ',' :: '\n' :: (renderElems d (v2 :: vs3)
                  ++ '\n' :: (indentChars (2 * d) ++ ']' :: rest))) := by
            rw [parseVal_indent]
            exact (ih g (by omega)).1 v (d + 1) _ hszv.1 hjv.1 (by exact (by decide : (',').isDigit = false))
          rw [parseElems_step g _ _ _ v ',' hv
            (skipWs_cons_not ',' _ (by decide))]
          rw [if_pos rfl]
          rw [parseElems_ws g '\n' _ (by decide)]
          rw [(ih g (by omega)).2.1 (v2 :: vs3) d rest (by simp) hszv.2 hjv.2]
          rfl
  · intro fs d rest hne hsz hjson
    cases fuel with
    | zero => exact absurd hsz (by have := jsizeFields_pos fs; omega)
    | succ g =>
      cases fs with
      | nil => exact absurd rfl hne
      | cons f fs2 =>
        obtain ⟨k, v⟩ := f
        have hjv : v.jsonOnly = true ∧ jsonOnlyFields fs2 = true := by
          rw [show jsonOnlyFields ((k, v) :: fs2)
            = (v.jsonOnly && jsonOnlyFields fs2) from rfl] at hjson
          exact ⟨by simp at hjson; exact hjson.1, by simp at hjson; exact hjson.2⟩
        have hszv : jsize v ≤ g ∧ jsizeFields fs2 ≤ g := by
          rw [show jsizeFields ((k, v) :: fs2)
            = jsize v + jsizeFields fs2 + 1 from rfl] at hsz
          have := jsize_pos v
          have := jsizeFields_pos fs2
          omega
        cases fs2 with
        | nil =>
          have hin : renderFields d [(k, v)]
                ++ '\n' :: (indentChars (2 * d) ++ '}' :: rest)
              = indentChars (2 * (d + 1)) ++ ('"' :: (escList k.data
                  ++ '"' :: (':' :: ' ' :: (renderVal (d + 1) v
                    ++ '\n' :: (indentChars (2 * d) ++ '}' :: rest))))) := by
            show (indentChars (2 * (d + 1)) ++ (('"' :: (escList k.data ++ ['"']))
                ++ ':' :: ' ' :: renderVal (d + 1) v))
                ++ '\n' :: (indentChars (2 * d) ++ '}' :: rest) = _
            rw [List.append_assoc]
            congr 1
            rw [show (('"' :: (escList k.data ++ ['"']))
                ++ ':' :: ' ' :: renderVal (d + 1) v)
                ++ '\n' :: (indentChars (2 * d) ++ '}' :: rest)
              = '"' :: (((escList k.data ++ ['"'])
                ++ ':' :: ' ' :: renderVal (d + 1) v)
                ++ '\n' :: (indentChars (2 * d) ++ '}' :: rest)) from rfl]
            rw [List.append_assoc, List.append_assoc]
            rfl
          rw [hin]
          have hv : parseVal g (' ' :: (renderVal (d + 1) v
              ++ '\n' :: (indentChars (2 * d) ++ '}' :: rest)))
              = some (v, '\n' :: (indentChars (2 * d) ++ '}' :: rest)) := by
            rw [parseVal_ws g ' ' _ (by decide)]
            exact (ih g (by omega)).1 v (d + 1) _ hszv.1 hjv.1 (by exact (by decide : ('\n').isDigit = false))
          rw [parseFieldList_step g _ (escList k.data
              ++ '"' :: (':' :: ' ' :: (renderVal (d + 1) v
                ++ '\n' :: (indentChars (2 * d) ++ '}' :: rest))))
            (':' :: ' ' :: (renderVal (d + 1) v
              ++ '\n' :: (indentChars (2 * d) ++ '}' :: rest)))
            (' ' :: (renderVal (d + 1) v
              ++ '\n' :: (indentChars (2 * d) ++ '}' :: rest)))
            ('\n' :: (indentChars (2 * d) ++ '}' :: rest)) rest k.data v '}'
            (by rw [skipWs_indent, skipWs_cons_not '"' _ (by decide)])
            (parseStrBody_escList k.data _)
            (skipWs_cons_not ':' _ (by decide)) hv
            (by rw [skipWs_cons_ws '\n' _ (by decide), skipWs_indent,
              skipWs_cons_not '}' _ (by decide)])]
          have hk : String.mk k.data = k := rfl
          simp [hk]
        | cons f2 fs3 =>
          have hin : renderFields d ((k, v) :: f2 :: fs3)
                ++ '\n' :: (indentChars (2 * d) ++ '}' :: rest)
              = indentChars (2 * (d + 1)) ++ ('"' :: (escList k.data
                  ++ '"' :: (':' :: ' ' :: (renderVal (d + 1) v
                    ++ ',' :: '\n' :: (renderFields d (f2 :: fs3)
                      ++ '\n' :: (indentChars (2 * d) ++ '}' :: rest)))))) := by
            show (indentChars (2 * (d + 1)) ++ (('"' :: (escList k.data ++ ['"']))
                ++ ':' :: ' ' :: (renderVal (d + 1) v
                  ++ ',' :: '\n' :: renderFields d (f2 :: fs3))))
                ++ '\n' :: (indentChars (2 * d) ++ '}' :: rest) = _
            simp
          rw [hin]
          have hv : parseVal g (' ' :: (renderVal (d + 1) v
              ++ ',' :: '\n' :: (renderFields d (f2 :: fs3)
                ++ '\n' :: (indentChars (2 * d) ++ '}' :: rest))))
              = some (v, ',' :: '\n' :: (renderFields d (f2 :: fs3)
                  ++ '\n' :: (indentChars (2 * d) ++ '}' :: rest))) := by
            rw [parseVal_ws g ' ' _ (by decide)]
            exact (ih g (by omega)).1 v (d + 1) _ hszv.1 hjv.1 (by exact (by decide : (',').isDigit = false))
          rw [parseFieldList_step g _ (escList k.data
              ++ '"' :: (':' :: ' ' :: (renderVal (d + 1) v
                ++ ',' :: '\n' :: (renderFields d (f2 :: fs3)
                  ++ '\n' :: (indentChars (2 * d) ++ '}' :: rest)))))
            (':' :: ' ' :: (renderVal (d + 1) v
              ++ ',' :: '\n' :: (renderFields d (f2 :: fs3)
                ++ '\n' :: (indentChars (2 * d) ++ '}' :: rest))))
            (' ' :: (renderVal (d + 1) v
              ++ ',' :: '\n' :: (renderFields d (f2 :: fs3)
                ++ '\n' :: (indentChars (2 * d) ++ '}' :: rest))))
            (',' :: '\n' :: (renderFields d (f2 :: fs3)
              ++ '\n' :: (indentChars (2 * d) ++ '}' :: rest)))
            ('\n' :: (renderFields d (f2 :: fs3)
              ++ '\n' :: (indentChars (2 * d) ++ '}' :: rest))) k.data v ','
            (by rw [skipWs_indent, skipWs_cons_not '"' _ (by decide)])
            (parseStrBody_escList k.data _)
            (skipWs_cons_not ':' _ (by decide)) hv
            (skipWs_cons_not ',' _ (by decide))]
          rw [if_pos rfl]
          rw [parseFieldList_ws g '\n' _ (by decide)]
          rw [(ih g (by omega)).2.2 (f2 :: fs3) d rest (by simp) hszv.2 hjv.2]
          rfl

/-- Every value's size is bounded by the length of its rendering. -/
theorem jsize_le_renderLen : ∀ (v : JsVal) (d : Nat),
    jsize v ≤ (renderVal d v).length := by
  refine jsValIndP (P := fun v => ∀ d, jsize v ≤ (renderVal d v).length)
    (Q := fun vs => ∀ d, jsizeList vs ≤ (renderElems d vs).length + 1)
    (R := fun fs => ∀ d, jsizeFields fs ≤ (renderFields d fs).length + 1)
    ?_ ?_ ?_ ?_ ?_ ?_ ?_ ?_ ?_ ?_ ?_
  · intro d
    rw [show renderVal d .undefVal = ['n', 'u', 'l', 'l'] from rfl,
      show jsize .undefVal = 1 from rfl]
    decide
  · intro d
    rw [show renderVal d .null = ['n', 'u', 'l', 'l'] from rfl,
      show jsize .null = 1 from rfl]
    decide
  · intro b d
    cases b with
    | true =>
      rw [show renderVal d (.bool true) = ['t', 'r', 'u', 'e'] from rfl,
        show jsize (.bool true) = 1 from rfl]
      decide
    | false =>
      rw [show renderVal d (.bool false) = ['f', 'a', 'l', 's', 'e'] from rfl,
        show jsize (.bool false) = 1 from rfl]
      decide
  · intro n d
    rw [show renderVal d (.num n) = intToChars n from rfl,
      show jsize (.num n) = 1 from rfl]
    rw [intToChars]
    by_cases hn : n < 0
    · simp [hn]
    · rw [if_neg hn]
      have := natToChars_ne_nil n.toNat
      exact List.length_pos.mpr this
  · intro s d
    rw [show renderVal d (.str s) = renderString s from rfl,
      show jsize (.str s) = 1 from rfl, renderString]
    simp
  · intro vs ih d
    cases vs with
    | nil =>
      rw [show renderVal d (.arr []) = ['[', ']'] from rfl,
        show jsize (.arr []) = jsizeList [] + 1 from rfl,
        show jsizeList [] = 1 from rfl]
      decide
    | cons v vs2 =>
      rw [show jsize (.arr (v :: vs2)) = jsizeList (v :: vs2) + 1 from rfl,
        show renderVal d (.arr (v :: vs2)) = '[' :: '\n' :: (renderElems d (v :: vs2)
          ++ '\n' :: (indentChars (2 * d) ++ [']'])) from rfl]
      have := ih d
      simp [List.length_append, indentChars]
      omega
  · intro fs ih d
    cases fs with
    | nil =>
      rw [show renderVal d (.obj []) = ['{', '}'] from rfl,
        show jsize (.obj []) = jsizeFields [] + 1 from rfl,
        show jsizeFields [] = 1 from rfl]
      decide
    | cons f fs2 =>
      obtain ⟨k, v⟩ := f
      rw [show jsize (.obj ((k, v) :: fs2)) = jsizeFields ((k, v) :: fs2) + 1 from rfl,
        show renderVal d (.obj ((k, v) :: fs2)) = '{' :: '\n' ::
          (renderFields d ((k, v) :: fs2)
            ++ '\n' :: (indentChars (2 * d) ++ ['}'])) from rfl]
      have := ih d
      simp [List.length_append, indentChars]
      omega
  · intro d
    rw [show jsizeList [] = 1 from rfl, show renderElems d [] = [] from rfl]
    simp
  · intro v vs ihv ihvs d
    rw [show jsizeList (v :: vs) = jsize v + jsizeList vs + 1 from rfl]
    cases vs with
    | nil =>
      rw [show renderElems d [v]
        = indentChars (2 * (d + 1)) ++ renderVal (d + 1) v from rfl]
      have h1 := ihv (d + 1)
      rw [show jsizeList ([] : List JsVal) = 1 from rfl]
      simp [List.length_append, indentChars]
      omega
    | cons v2 vs3 =>
      rw [show renderElems d (v :: v2 :: vs3)
        = indentChars (2 * (d + 1)) ++ (renderVal (d + 1) v
          ++ ',' :: '\n' :: renderElems d (v2 :: vs3)) from rfl]
      have h1 := ihv (d + 1)
      have h2 := ihvs d
      simp [List.length_append, indentChars]
      omega
  · intro d
    rw [show jsizeFields [] = 1 from rfl, show renderFields d [] = [] from rfl]
    simp
  · intro k v fs ihv ihfs d
    rw [show jsizeFields ((k, v) :: fs) = jsize v + jsizeFields fs + 1 from rfl]
    cases fs with
    | nil =>
      rw [show renderFields d [(k, v)]
        = indentChars (2 * (d + 1)) ++ (renderString k
          ++ ':' :: ' ' :: renderVal (d + 1) v) from rfl]
      have h1 := ihv (d + 1)
      rw [show jsizeFields ([] : List (String × JsVal)) = 1 from rfl, renderString]
      simp [List.length_append, indentChars]
      omega
    | cons f2 fs3 =>
      rw [show renderFields d ((k, v) :: f2 :: fs3)
        = indentChars (2 * (d + 1)) ++ (renderString k
          ++ ':' :: ' ' :: (renderVal (d + 1) v
            ++ ',' :: '\n' :: renderFields d (f2 :: fs3))) from rfl]
      have h1 := ihv (d + 1)
      have h2 := ihfs d
      rw [renderString]
      simp [List.length_append, indentChars]
      omega

/-- Parsing the pretty-printed rendering of a JSON-representable value
recovers it. -/
theorem parseJson_render (v : JsVal) (hj : v.jsonOnly = true) :
    parseJson (String.mk (renderVal 0 v)) = some v := by
  have hdata : (String.mk (renderVal 0 v)).data = renderVal 0 v := rfl
  have hfuel := jsize_le_renderLen v 0
  have h := (parse_render_all ((renderVal 0 v).length + 1)).1 v 0 []
    (by omega) hj True.intro
  rw [List.append_nil] at h
  rw [parseJson.eq_def, hdata, h]
  rfl

/-- JSON.stringify then JSON.parse is the identity on JSON-representable
values. -/
theorem parseJson_stringify2 (v : JsVal) (hj : v.jsonOnly = true) :
    parseJson (stringify2 v) = some v := by
  rw [stringify2, stripUndef_jsonOnly v hj, parseJson_render v hj]

/-- The GeoJSON form of a json-only collection is json-only. -/
theorem fcToJson_jsonOnly (fc : FeatureColl) (h : fcJsonOnly fc = true) :
    (fcToJson fc).jsonOnly = true := by
  rw [fcToJson]
  rw [show (JsVal.obj [("type", .str "FeatureCollection"),
      ("features", .arr (fc.features.map featureToJson))]).jsonOnly
    = ((JsVal.str "FeatureCollection").jsonOnly &&
        ((JsVal.arr (fc.features.map featureToJson)).jsonOnly && true)) from rfl]
  rw [show (JsVal.str "FeatureCollection").jsonOnly = true from rfl]
  rw [show (JsVal.arr (fc.features.map featureToJson)).jsonOnly
    = jsonOnlyList (fc.features.map featureToJson) from rfl]
  simp only [Bool.true_and, Bool.and_true]
  rw [fcJsonOnly] at h
  have hlist : ∀ l : List Feature,
      l.all (fun f => f.geometry.jsonOnly && jsonOnlyFields f.properties) = true →
      jsonOnlyList (l.map featureToJson) = true := by
    intro l
    induction l with
    | nil => intro _; rfl
    | cons f fs ih =>
      intro hl
      simp only [List.all_cons, Bool.and_eq_true] at hl
      obtain ⟨⟨hg, hp⟩, hrest⟩ := hl
      rw [List.map_cons,
        show jsonOnlyList (featureToJson f :: fs.map featureToJson)
          = ((featureToJson f).jsonOnly
            && jsonOnlyList (fs.map featureToJson)) from rfl,
        ih hrest]
      rw [featureToJson,
        show (JsVal.obj [("type", .str "Feature"), ("geometry", f.geometry),
          ("properties", .obj f.properties)]).jsonOnly
        = ((JsVal.str "Feature").jsonOnly && (f.geometry.jsonOnly &&
            ((JsVal.obj f.properties).jsonOnly && true))) from rfl]
      rw [show (JsVal.obj f.properties).jsonOnly
        = jsonOnlyFields f.properties from rfl]
      simp [hg, hp, show (JsVal.str "Feature").jsonOnly = true from rfl]
  exact hlist fc.features h

/-- Reading a feature back from its GeoJSON form. -/
theorem jsonToFeature_featureToJson (f : Feature) :
    jsonToFeature (featureToJson f) = some f := rfl

/-- Reading a collection back from its GeoJSON form. -/
theorem jsonToFc_fcToJson (fc : FeatureColl) : jsonToFc (fcToJson fc) = some fc := by
  rw [fcToJson, jsonToFc]
  rw [show List.lookup "features" [("type", JsVal.str "FeatureCollection"),
    ("features", JsVal.arr (fc.features.map featureToJson))]
    = some (JsVal.arr (fc.features.map featureToJson)) from rfl]
  have hmapM : ∀ l : List Feature, (l.map featureToJson).mapM jsonToFeature = some l := by
    intro l
    induction l with
    | nil => rfl
    | cons f fs ih =>
      rw [List.map_cons, List.mapM_cons, jsonToFeature_featureToJson, ih]
      rfl
  show Option.map FeatureColl.mk
    ((fc.features.map featureToJson).mapM jsonToFeature) = some fc
  rw [hmapM fc.features]
  rfl

/-- C7 counterexample: exporting a collection whose feature carries an
undefined-valued property (JSON.stringify drops such fields) and importing
the result yields a feature whose properties lost the key, so the round trip
is not the identity on every feature collection. -/
theorem c7_counterexample :
    (Formatter.fromGeoJSON (exportGeojson fcUndefSample)).bind jsonToFc
      = some ⟨[⟨.null, []⟩]⟩ ∧
    ((⟨[⟨.null, []⟩]⟩ : FeatureColl).features.map Feature.properties
      ≠ fcUndefSample.features.map Feature.properties) :=
  ⟨rfl, by simp [fcUndefSample]⟩

/-- C7 (amended): for every feature collection whose geometries and property
values are JSON-representable (no undefined values), exporting with the
geojson export formatter and importing the result with the GeoJSON import
adapter yields exactly the original collection - the same features with the
same properties and geometries. -/
theorem c7_geojson_roundtrip (fc : FeatureColl) (h : fcJsonOnly fc = true) :
    (Formatter.fromGeoJSON (exportGeojson fc)).bind jsonToFc = some fc := by
  rw [Formatter.fromGeoJSON, exportGeojson,
    parseJson_stringify2 (fcToJson fc) (fcToJson_jsonOnly fc h)]
  rw [Option.some_bind, jsonToFc_fcToJson]

/-- Witness for c7_geojson_roundtrip at a concrete collection exercising all
scalar kinds and a nested geometry object. -/
theorem c7_geojson_roundtrip_witness :
    fcJsonOnly ⟨[⟨.obj [("type", .str "Point"),
        ("coordinates", .arr [.num 2, .num (-1)])],
      [("name", .str "A\"B"), ("n", .num 42), ("ok", .bool true),
        ("v", .null)]⟩]⟩ = true ∧
    (Formatter.fromGeoJSON (exportGeojson ⟨[⟨.obj [("type", .str "Point"),
        ("coordinates", .arr [.num 2, .num (-1)])],
      [("name", .str "A\"B"), ("n", .num 42), ("ok", .bool true),
        ("v", .null)]⟩]⟩)).bind jsonToFc
      = some ⟨[⟨.obj [("type", .str "Point"),
        ("coordinates", .arr [.num 2, .num (-1)])],
      [("name", .str "A\"B"), ("n", .num 42), ("ok", .bool true),
        ("v", .null)]⟩]⟩ :=
  ⟨rfl, c7_geojson_roundtrip _ rfl⟩
